import Mathlib

/-!
Verification of the betting-data extraction core
(`src/server/betting/extract-data.ts`).

The TypeScript function `extractBettingData(rows, userId)` walks a list of
rows (each a list of string cells), assembles `SingleBet`, `ParlayHeader`
and `ParlayLeg` records, and aggregates `TeamStat` / `PlayerStat` /
`PropStat` counters.  This file is a shallow embedding of that function and
its helpers, followed by theorems about the embedding.

Modelling conventions:
* JavaScript strings are Lean `String`s; the handful of string methods the
  source uses (`trim`, `toLowerCase`, `toUpperCase`, `includes`, `split`)
  are re-implemented on `List Char` so that they reduce well and mirror the
  ECMAScript semantics for the (ASCII) data this code processes.
* JavaScript numbers are modelled by `JSNum`: NaN, the two infinities, or an
  exact rational.  IEEE-754 rounding is not modelled; no theorem below
  depends on rounding, only on NaN/Infinity propagation and on exact values
  of short decimal literals.
* `new Date(y, m, d, h, min)` with the bounded integer arguments produced by
  the source's own regex captures always yields a valid JS date; it is
  modelled by the record `JSDate` holding the constructor arguments
  (calendar normalisation of out-of-range components is not modelled and no
  theorem depends on it).
* `new Date(string)` (an engine-defined platform primitive, not repository
  code) is modelled by `jsDateFromString` below; see its doc comment.
-/

set_option autoImplicit false

namespace Betting

/-- A row of the input table: an ordered list of string cells. -/
abbrev Row := List String

/-- Characters treated as whitespace by JavaScript's `trim` and by `\s` in
its regexes (ASCII part plus the common Unicode spaces). -/
def jsWhitespaceChar (c : Char) : Bool :=
  c = ' ' || c = '\t' || c = '\n' || c = '\r' || c = '\x0b' || c = '\x0c' ||
  c = '\u00A0' || c = '\u2028' || c = '\u2029' || c = '\uFEFF'

/-- JavaScript `String.prototype.trim`. -/
def jsTrim (s : String) : String :=
  ⟨List.reverse (List.dropWhile jsWhitespaceChar
    (List.reverse (List.dropWhile jsWhitespaceChar s.data)))⟩

/-- JavaScript `String.prototype.toLowerCase` (ASCII; the data this code
sees is ASCII). -/
def lowerStr (s : String) : String := ⟨s.data.map Char.toLower⟩

/-- JavaScript `String.prototype.toUpperCase` (ASCII). -/
def upperStr (s : String) : String := ⟨s.data.map Char.toUpper⟩

/-- Does the first list occur as a leading segment of the second? -/
def startsWithChars : List Char → List Char → Bool
  | [], _ => true
  | _ :: _, [] => false
  | a :: as, b :: bs => a = b && startsWithChars as bs

/-- Does `needle` occur as a contiguous segment of the second list? -/
def containsChars (needle : List Char) : List Char → Bool
  | [] => startsWithChars needle []
  | c :: rest => startsWithChars needle (c :: rest) || containsChars needle rest

/-- JavaScript `s.includes(sub)`. -/
def strContains (s sub : String) : Bool := containsChars sub.data s.data

/-- Value of a list of decimal digit characters. -/
def digitsToNat (cs : List Char) : Nat :=
  cs.foldl (fun n c => n * 10 + (c.toNat - '0'.toNat)) 0

/-- A JavaScript number: NaN, an infinity, or (the exact value of) a finite
double. -/
inductive JSNum where
  | nan
  | inf
  | neginf
  | num (q : ℚ)
  deriving Repr, DecidableEq

/-- Is a `JSNum` a finite number? -/
def JSNum.isFinite : JSNum → Bool
  | .num _ => true
  | _ => false

/-- Exponent part of a JS float literal: optional sign then digits; an `e`
with no following digits contributes no exponent (the literal stops before
the `e`), which this models by returning `0`. -/
def parseExpPart (cs : List Char) : Int :=
  match cs with
  | '+' :: rest =>
      let ds := rest.takeWhile Char.isDigit
      if ds.isEmpty then 0 else (digitsToNat ds : Int)
  | '-' :: rest =>
      let ds := rest.takeWhile Char.isDigit
      if ds.isEmpty then 0 else -(digitsToNat ds : Int)
  | _ =>
      let ds := cs.takeWhile Char.isDigit
      if ds.isEmpty then 0 else (digitsToNat ds : Int)

/-- Unsigned part of `parseFloat`: `Infinity`, or a decimal literal
`digits [. digits] [e[±]digits]`; NaN when no digits at all.  The exact
value of the literal, `I.F × 10^ex`, is written as the single fraction
`digits(I ++ F) / 10^|F| × 10^ex` and built with `mkRat`. -/
def parseFloatUnsigned (cs : List Char) (neg : Bool) : JSNum :=
  if startsWithChars "Infinity".data cs then
    if neg then .neginf else .inf
  else
    let ip := cs.takeWhile Char.isDigit
    let r1 := cs.drop ip.length
    let fp := match r1 with
      | '.' :: rest => rest.takeWhile Char.isDigit
      | _ => []
    let r2 := match r1 with
      | '.' :: rest => rest.drop fp.length
      | _ => r1
    if ip.isEmpty && fp.isEmpty then .nan
    else
      let ex : Int := match r2 with
        | 'e' :: rest => parseExpPart rest
        | 'E' :: rest => parseExpPart rest
        | _ => 0
      let m : Int := (digitsToNat (ip ++ fp) : Int)
      let v : ℚ :=
        if 0 ≤ ex then mkRat (m * (10 ^ ex.toNat : Nat)) (10 ^ fp.length)
        else mkRat m (10 ^ fp.length * 10 ^ ex.natAbs)
      .num (if neg then -v else v)

/-- JavaScript `parseFloat`: skip leading whitespace, optional sign, then
the longest valid float-literal prefix; NaN when there is none. -/
def jsParseFloat (s : String) : JSNum :=
  match s.data.dropWhile jsWhitespaceChar with
  | '+' :: rest => parseFloatUnsigned rest false
  | '-' :: rest => parseFloatUnsigned rest true
  | cs => parseFloatUnsigned cs false

/-!
Hand-rolled matchers for the six date regexes of `isDateString` and for the
capture regex of `parseDate`.  All patterns are anchored at the start only.
Each quantified character class in those regexes is followed either by a
character outside the class or by the end of the pattern, so greedy
maximal-munch with an exact/minimum length check implements the regex
backtracking semantics exactly:
* a class with bound `{lo,hi}` followed by a disjoint required character is
  matched by `grabRange` (the munch must stop inside `[lo,hi]`);
* a trailing class with bound `{n}` (the regex is unanchored at the end, so
  extra characters may follow) is matched by `grabMin`.
-/

/-- Munch `p`-characters greedily; succeed if their count lies in
`[lo, hi]`, returning the munched characters and the rest. -/
def grabRange (p : Char → Bool) (lo hi : Nat) (cs : List Char) :
    Option (List Char × List Char) :=
  let d := cs.takeWhile p
  if lo ≤ d.length && d.length ≤ hi then some (d, cs.drop d.length) else none

/-- Munch `p`-characters greedily; succeed if there are at least `lo`. -/
def grabMin (p : Char → Bool) (lo : Nat) (cs : List Char) :
    Option (List Char × List Char) :=
  let d := cs.takeWhile p
  if lo ≤ d.length then some (d, cs.drop d.length) else none

/-- Require one concrete character. -/
def expectChar (c : Char) : List Char → Option (List Char)
  | [] => none
  | a :: rest => if a = c then some rest else none

/-- Match `(am|pm)` case-insensitively (the trailing group of the first
date pattern, which carries the `/i` flag). -/
def ampmTail (cs : List Char) : Option (List Char) :=
  match cs with
  | c1 :: c2 :: rest =>
      if (c1.toLower = 'a' || c1.toLower = 'p') && c2.toLower = 'm' then
        some rest
      else none
  | _ => none

/-- Captures of the sportsbook's custom date format
`^(\d{1,2})\s+([A-Za-z]{3,})\s+(\d{4})\s+@\s+(\d{1,2}):(\d{2})(am|pm)` (with
`/i`): day digits, month letters, year digits, hour digits, minute digits,
and whether the meridiem is `pm`. -/
structure DateCapture where
  dayDigits : List Char
  monthChars : List Char
  yearDigits : List Char
  hourDigits : List Char
  minuteDigits : List Char
  isPm : Bool
  deriving Repr, DecidableEq

/-- Run the custom-format capture regex (see `DateCapture`). -/
def customDateCapture (cs : List Char) : Option DateCapture := do
  let (d, r) ← grabRange Char.isDigit 1 2 cs
  let (_, r) ← grabMin jsWhitespaceChar 1 r
  let (mon, r) ← grabMin Char.isAlpha 3 r
  let (_, r) ← grabMin jsWhitespaceChar 1 r
  let (y, r) ← grabRange Char.isDigit 4 4 r
  let (_, r) ← grabMin jsWhitespaceChar 1 r
  let r ← expectChar '@' r
  let (_, r) ← grabMin jsWhitespaceChar 1 r
  let (h, r) ← grabRange Char.isDigit 1 2 r
  let r ← expectChar ':' r
  let (mi, r) ← grabRange Char.isDigit 2 2 r
  match r with
  | c1 :: c2 :: _ =>
      if (c1.toLower = 'a' || c1.toLower = 'p') && c2.toLower = 'm' then
        some ⟨d, mon, y, h, mi, c1.toLower = 'p'⟩
      else none
  | _ => none

/-- Pattern `^\d{1,2}\s+[A-Za-z]{3,}\s+\d{4}\s+@\s+\d{1,2}:\d{2}(am|pm)/i`,
for example `9 Feb 2023 @ 4:08pm`. -/
def dateAtTimePat (cs : List Char) : Bool :=
  (customDateCapture cs).isSome

/-- Pattern `^\d{4}-\d{2}-\d{2}T\d{2}:\d{2}:\d{2}`, an ISO prefix. -/
def isoDatePat (cs : List Char) : Bool :=
  (do
    let (_, r) ← grabRange Char.isDigit 4 4 cs
    let r ← expectChar '-' r
    let (_, r) ← grabRange Char.isDigit 2 2 r
    let r ← expectChar '-' r
    let (_, r) ← grabRange Char.isDigit 2 2 r
    let r ← expectChar 'T' r
    let (_, r) ← grabRange Char.isDigit 2 2 r
    let r ← expectChar ':' r
    let (_, r) ← grabRange Char.isDigit 2 2 r
    let r ← expectChar ':' r
    let (_, _) ← grabMin Char.isDigit 2 r
    some ()).isSome

/-- Pattern `^\d{2}\/\d{2}\/\d{4}`, for example `02/09/2023`. -/
def slashDatePat (cs : List Char) : Bool :=
  (do
    let (_, r) ← grabRange Char.isDigit 2 2 cs
    let r ← expectChar '/' r
    let (_, r) ← grabRange Char.isDigit 2 2 r
    let r ← expectChar '/' r
    let (_, _) ← grabMin Char.isDigit 4 r
    some ()).isSome

/-- Pattern `^[A-Za-z]{3,}\s+\d{1,2},\s+\d{4}`, for example
`February 9, 2023`. -/
def monthDayYearPat (cs : List Char) : Bool :=
  (do
    let (_, r) ← grabMin Char.isAlpha 3 cs
    let (_, r) ← grabMin jsWhitespaceChar 1 r
    let (_, r) ← grabRange Char.isDigit 1 2 r
    let r ← expectChar ',' r
    let (_, r) ← grabMin jsWhitespaceChar 1 r
    let (_, _) ← grabMin Char.isDigit 4 r
    some ()).isSome

/-- Pattern `^\d{1,2}-[A-Za-z]{3}-\d{4}`, for example `9-Feb-2023`. -/
def dashDatePat (cs : List Char) : Bool :=
  (do
    let (_, r) ← grabRange Char.isDigit 1 2 cs
    let r ← expectChar '-' r
    let (_, r) ← grabRange Char.isAlpha 3 3 r
    let r ← expectChar '-' r
    let (_, _) ← grabMin Char.isDigit 4 r
    some ()).isSome

/-- Pattern `^\d{1,2}\.\d{1,2}\.\d{4}`, for example `09.02.2023`. -/
def dotDatePat (cs : List Char) : Bool :=
  (do
    let (_, r) ← grabRange Char.isDigit 1 2 cs
    let r ← expectChar '.' r
    let (_, r) ← grabRange Char.isDigit 1 2 r
    let r ← expectChar '.' r
    let (_, _) ← grabMin Char.isDigit 4 r
    some ()).isSome

/-- Source `isDateString`: non-blank and matching one of the six date
patterns, tested on the trimmed string. -/
def isDateString (str : String) : Bool :=
  if jsTrim str = "" then false
  else
    let cs := (jsTrim str).data
    dateAtTimePat cs || isoDatePat cs || slashDatePat cs ||
    monthDayYearPat cs || dashDatePat cs || dotDatePat cs

/-- The arguments of a successful JS `new Date(year, month, day, hour,
minute)` call (month is 0-based as in JavaScript). -/
structure JSDate where
  year : Nat
  month : Nat
  day : Nat
  hour : Nat
  minute : Nat
  deriving Repr, DecidableEq

/-- Models the platform primitive `new Date(string)` as used by
`parseDate`.  ECMA-262 mandates only ISO 8601 parsing; V8's legacy
fallback accepts further shapes but rejects any string containing `@` and
bare words such as `garbage`, which are the only non-ISO inputs the
theorems below evaluate this model on.  The model accepts the
`YYYY-MM-DDTHH:MM:SS` shape with in-range components and maps every other
string to an invalid date (`none`). -/
def jsDateFromString (s : String) : Option JSDate := do
  let (y, r) ← grabRange Char.isDigit 4 4 s.data
  let r ← expectChar '-' r
  let (mo, r) ← grabRange Char.isDigit 2 2 r
  let r ← expectChar '-' r
  let (d, r) ← grabRange Char.isDigit 2 2 r
  let r ← expectChar 'T' r
  let (h, r) ← grabRange Char.isDigit 2 2 r
  let r ← expectChar ':' r
  let (mi, r) ← grabRange Char.isDigit 2 2 r
  let r ← expectChar ':' r
  let (sec, r) ← grabRange Char.isDigit 2 2 r
  if r.isEmpty && 1 ≤ digitsToNat mo && digitsToNat mo ≤ 12 &&
      1 ≤ digitsToNat d && digitsToNat d ≤ 31 && digitsToNat h ≤ 23 &&
      digitsToNat mi ≤ 59 && digitsToNat sec ≤ 59 then
    some ⟨digitsToNat y, digitsToNat mo - 1, digitsToNat d,
          digitsToNat h, digitsToNat mi⟩
  else none

/-- Source month-abbreviation table of `parseDate` (0-based month). -/
def monthIndex : String → Option Nat
  | "jan" => some 0 | "january" => some 0
  | "feb" => some 1 | "february" => some 1
  | "mar" => some 2 | "march" => some 2
  | "apr" => some 3 | "april" => some 3
  | "may" => some 4
  | "jun" => some 5 | "june" => some 5
  | "jul" => some 6 | "july" => some 6
  | "aug" => some 7 | "august" => some 7
  | "sep" => some 8 | "september" => some 8
  | "oct" => some 9 | "october" => some 9
  | "nov" => some 10 | "november" => some 10
  | "dec" => some 11 | "december" => some 11
  | _ => none

/-- Source `parseDate`: blank strings give `null`; then the built-in date
parse is tried; then the custom `D Mon YYYY @ H:MMam/pm` regex with the
month table and 12-hour conversion; `null` on total failure.  The
`new Date(year, month, day, hour, minute)` call always passes the source's
`isValidDate` check for the bounded components captured here. -/
def parseDate (dateStr : String) : Option JSDate :=
  if jsTrim dateStr = "" then none
  else
    match jsDateFromString dateStr with
    | some d => some d
    | none =>
        let trimmed := jsTrim dateStr
        match customDateCapture trimmed.data with
        | none => none
        | some cap =>
            match monthIndex ⟨cap.monthChars.map Char.toLower⟩ with
            | none => none
            | some m =>
                let hour := digitsToNat cap.hourDigits
                let hourNum :=
                  if cap.isPm && hour < 12 then hour + 12
                  else if !cap.isPm && hour = 12 then 0
                  else hour
                some ⟨digitsToNat cap.yearDigits, m, digitsToNat cap.dayDigits,
                      hourNum, digitsToNat cap.minuteDigits⟩

/-- Split a character list on a non-empty separator `s0 :: stail`,
mirroring JavaScript `String.prototype.split` for plain string separators
(adjacent separators yield empty fields).  Structural recursion on a fuel
argument (every step consumes at least one character, so fuel equal to the
input length never runs out; the fuel-exhausted branch is unreachable). -/
def splitOnCharsFuel (s0 : Char) (stail : List Char) :
    Nat → List Char → List Char → List (List Char)
  | _, [], acc => [acc.reverse]
  | 0, cs, acc => [acc.reverse ++ cs]
  | fuel + 1, c :: rest, acc =>
      if startsWithChars (s0 :: stail) (c :: rest) then
        acc.reverse :: splitOnCharsFuel s0 stail fuel (rest.drop stail.length) []
      else
        splitOnCharsFuel s0 stail fuel rest (c :: acc)

/-- JavaScript `s.split(sep)` for a non-empty plain-string separator (the
source only splits on `" vs "`, `" @ "` and `" - "`). -/
def jsSplit (s sep : String) : List String :=
  match sep.data with
  | [] => [s]
  | s0 :: stail => (splitOnCharsFuel s0 stail s.data.length s.data []).map (⟨·⟩)

/-- Source `getCell`: the cell at `index`, or `""` out of bounds, trimmed. -/
def getCell (row : Row) (index : Nat) : String :=
  jsTrim (row.getD index "")

/-- The `/[$,]/g` strip applied by `getCellAsNumber`. -/
def stripCurrency (s : String) : String :=
  ⟨s.data.filter (fun c => !(c = '$' || c = ','))⟩

/-- Source `getCellAsNumber`: empty cell gives `undefined`; otherwise strip
`$` and `,`, `parseFloat`, and map NaN to `undefined`. -/
def getCellAsNumber (row : Row) (index : Nat) : Option JSNum :=
  let value := getCell row index
  if value = "" then none
  else
    let num := jsParseFloat (stripCurrency value)
    if num = JSNum.nan then none else some num

/-- Source `extractTeams`: split the match description on `" vs "`, else on
`" @ "`, trimming each part; no separator means no teams. -/
def extractTeams (matchStr : String) : List String :=
  if matchStr = "" then []
  else
    let trimmed := jsTrim matchStr
    if strContains trimmed " vs " then (jsSplit trimmed " vs ").map jsTrim
    else if strContains trimmed " @ " then (jsSplit trimmed " @ ").map jsTrim
    else []

/-- Source `extractPlayerAndProp`: when the market contains `" - "`, the
part before is the player and the part after is the prop type (JS
`split(sep, 2)` keeps the first two fields); otherwise both are null. -/
def extractPlayerAndProp (marketStr : String) : Option String × Option String :=
  if marketStr = "" then (none, none)
  else if strContains marketStr " - " then
    match jsSplit marketStr " - " with
    | p0 :: p1 :: _ => (some (jsTrim p0), some (jsTrim p1))
    | _ => (none, none)
  else (none, none)

/-- JavaScript truthiness of a nullable string: null and `""` are falsy. -/
def strOptTruthy : Option String → Bool
  | none => false
  | some s => s ≠ ""

/-- A single-outcome wager, as assembled by the single-bet branch.  The
source field `match` is called `matchField` here (`match` is reserved in
Lean). -/
structure SingleBet where
  userId : String
  datePlaced : Option JSDate
  status : String
  league : String
  matchField : String
  betType : String
  market : String
  selection : String
  price : Option JSNum
  wager : Option JSNum
  winnings : Option JSNum
  payout : Option JSNum
  result : String
  betSlipId : String
  deriving Repr, DecidableEq

/-- A parlay header record, as assembled by the parlay branch. -/
structure ParlayHeader where
  userId : String
  datePlaced : Option JSDate
  status : String
  league : String
  matchField : String
  betType : String
  market : String
  selection : String
  price : Option JSNum
  wager : Option JSNum
  winnings : Option JSNum
  payout : Option JSNum
  potentialPayout : Option JSNum
  result : String
  betSlipId : String
  deriving Repr, DecidableEq

/-- One leg of a parlay, as assembled by the leg branch. -/
structure ParlayLeg where
  parlayId : String
  legNumber : Nat
  status : String
  league : String
  matchField : String
  market : String
  selection : String
  price : Option JSNum
  gameDate : Option JSDate
  deriving Repr, DecidableEq

/-- Rolling per-team counters. -/
structure TeamStat where
  userId : String
  team : String
  league : String
  totalBets : Nat
  wins : Nat
  losses : Nat
  pushes : Nat
  pending : Nat
  deriving Repr, DecidableEq

/-- Rolling per-player counters with the distinct prop types seen. -/
structure PlayerStat where
  userId : String
  player : String
  propTypes : List String
  totalBets : Nat
  wins : Nat
  losses : Nat
  pushes : Nat
  pending : Nat
  deriving Repr, DecidableEq

/-- Rolling per-prop-type counters. -/
structure PropStat where
  userId : String
  propType : String
  totalBets : Nat
  wins : Nat
  losses : Nat
  pushes : Nat
  pending : Nat
  deriving Repr, DecidableEq

/-- Lookup in an insertion-ordered association list (the model of the
source's `Map` objects: `Map.get`). -/
def alFind {α : Type} (k : String) : List (String × α) → Option α
  | [] => none
  | (k', v) :: rest => if k' = k then some v else alFind k rest

/-- `Map.set`: replace the value in place when the key exists (JS maps keep
the original insertion position), otherwise append at the end. -/
def alSet {α : Type} (k : String) (v : α) : List (String × α) → List (String × α)
  | [] => [(k, v)]
  | (k', v') :: rest =>
      if k' = k then (k, v) :: rest else (k', v') :: alSet k v rest

/-- Which of the four outcome counters a processed unit increments. -/
inductive Outcome where
  | wins
  | losses
  | pushes
  | pending
  deriving Repr, DecidableEq

/-- Single-bet branch classification of the result text (source lines
346–355 and the two identical copies for player/prop stats): lower-case the
text, then check `won`/`win`, then `lost`/`lose`, then `push`, else
pending. -/
def classifySingleResult (result : String) : Outcome :=
  let r := lowerStr result
  if strContains r "won" || strContains r "win" then .wins
  else if strContains r "lost" || strContains r "lose" then .losses
  else if strContains r "push" then .pushes
  else .pending

/-- Parlay-leg branch classification of the leg status text (source lines
477–486 and its two copies): check `win`, then `lose`/`lost`, then `push`,
else pending. -/
def classifyLegStatus (status : String) : Outcome :=
  let s := lowerStr status
  if strContains s "win" then .wins
  else if strContains s "lose" || strContains s "lost" then .losses
  else if strContains s "push" then .pushes
  else .pending

/-- Increment the outcome counter selected by `o` on a team stat. -/
def addOutcomeTeam (o : Outcome) (s : TeamStat) : TeamStat :=
  match o with
  | .wins => { s with wins := s.wins + 1 }
  | .losses => { s with losses := s.losses + 1 }
  | .pushes => { s with pushes := s.pushes + 1 }
  | .pending => { s with pending := s.pending + 1 }

/-- Increment the outcome counter selected by `o` on a player stat. -/
def addOutcomePlayer (o : Outcome) (s : PlayerStat) : PlayerStat :=
  match o with
  | .wins => { s with wins := s.wins + 1 }
  | .losses => { s with losses := s.losses + 1 }
  | .pushes => { s with pushes := s.pushes + 1 }
  | .pending => { s with pending := s.pending + 1 }

/-- Increment the outcome counter selected by `o` on a prop stat. -/
def addOutcomeProp (o : Outcome) (s : PropStat) : PropStat :=
  match o with
  | .wins => { s with wins := s.wins + 1 }
  | .losses => { s with losses := s.losses + 1 }
  | .pushes => { s with pushes := s.pushes + 1 }
  | .pending => { s with pending := s.pending + 1 }

/-- Combined `totalBets++` plus one outcome-counter increment on a team
stat (the two mutations every processed unit performs on each touched
entry). -/
def bumpTeam (o : Outcome) (s : TeamStat) : TeamStat :=
  addOutcomeTeam o { s with totalBets := s.totalBets + 1 }

/-- Combined `totalBets++` plus one outcome-counter increment on a player
stat. -/
def bumpPlayer (o : Outcome) (s : PlayerStat) : PlayerStat :=
  addOutcomePlayer o { s with totalBets := s.totalBets + 1 }

/-- Combined `totalBets++` plus one outcome-counter increment on a prop
stat. -/
def bumpProp (o : Outcome) (s : PropStat) : PropStat :=
  addOutcomeProp o { s with totalBets := s.totalBets + 1 }

/-- One iteration of the source's `teams.forEach` for a single bet or a
parlay leg: skip blank team names, get-or-create the `(user, team)` entry
(a fresh entry records the current record's league), then `totalBets++` and
one outcome increment. -/
def applyTeam (userId league : String) (o : Outcome) (team : String)
    (m : List (String × TeamStat)) : List (String × TeamStat) :=
  if jsTrim team = "" then m
  else
    let base := (alFind team m).getD
      { userId := userId, team := team, league := league,
        totalBets := 0, wins := 0, losses := 0, pushes := 0, pending := 0 }
    alSet team (bumpTeam o base) m

/-- The whole `teams.forEach` loop. -/
def updateTeamStats (userId league : String) (o : Outcome)
    (teams : List String) (m : List (String × TeamStat)) :
    List (String × TeamStat) :=
  teams.foldl (fun m t => applyTeam userId league o t m) m

/-- The three source mutations applied to a player entry: `totalBets++`,
append the prop type to the distinct prop-type list when truthy and new,
then one outcome increment. -/
def playerUpdateCore (propType : Option String) (o : Outcome)
    (base : PlayerStat) : PlayerStat :=
  let s1 := { base with totalBets := base.totalBets + 1 }
  let s2 :=
    if strOptTruthy propType && !(s1.propTypes.contains (propType.getD "")) then
      { s1 with propTypes := s1.propTypes ++ [propType.getD ""] }
    else s1
  addOutcomePlayer o s2

/-- Source player-stat block (entered only when the extracted player name
is truthy): get-or-create the entry (a fresh one already lists the truthy
prop type), then apply `playerUpdateCore`. -/
def applyPlayer (userId player : String) (propType : Option String)
    (o : Outcome) (m : List (String × PlayerStat)) :
    List (String × PlayerStat) :=
  let fresh : PlayerStat :=
    { userId := userId, player := player,
      propTypes := if strOptTruthy propType then [propType.getD ""] else [],
      totalBets := 0, wins := 0, losses := 0, pushes := 0, pending := 0 }
  alSet player (playerUpdateCore propType o ((alFind player m).getD fresh)) m

/-- Source prop-stat block (entered only when the prop type is truthy):
get-or-create, `totalBets++`, one outcome increment. -/
def applyProp (userId propType : String) (o : Outcome)
    (m : List (String × PropStat)) : List (String × PropStat) :=
  let base := (alFind propType m).getD
    { userId := userId, propType := propType,
      totalBets := 0, wins := 0, losses := 0, pushes := 0, pending := 0 }
  alSet propType (bumpProp o base) m

/-!
Row classification.  Column indexes (`COL` in the source): 0 DATE,
1 STATUS, 2 LEAGUE, 3 MATCH, 4 BET_TYPE, 5 MARKET, 6 SELECTION, 7 PRICE,
8 WAGER, 9 WINNINGS, 10 PAYOUT, 11 POTENTIAL_PAYOUT, 12 RESULT,
13 BET_SLIP_ID.
-/

/-- Source `isParlay`: bet-type cell upper-cases to `MULTIPLE` or contains
`PARLAY`, and the date cell is date-like. -/
def isParlay (row : Row) : Bool :=
  decide (row.length > 4) &&
  (upperStr (getCell row 4) = "MULTIPLE" ||
    strContains (upperStr (getCell row 4)) "PARLAY") &&
  isDateString (getCell row 0)

/-- Source `isSingleBet`: bet-type cell is not the raw string `MULTIPLE`
and does not contain `PARLAY` (upper-cased), the date cell is date-like,
and the match or market cell is non-empty. -/
def isSingleBet (row : Row) : Bool :=
  decide (row.length > 4) &&
  decide (getCell row 4 ≠ "MULTIPLE") &&
  !(strContains (upperStr (getCell row 4)) "PARLAY") &&
  isDateString (getCell row 0) &&
  (decide (getCell row 3 ≠ "") || decide (getCell row 5 ≠ ""))

/-- Source `isParlayLeg`: empty date cell and a non-empty status, league or
match cell. -/
def isParlayLeg (row : Row) : Bool :=
  decide (row.length > 2) &&
  decide (getCell row 0 = "") &&
  (decide (getCell row 1 ≠ "") || decide (getCell row 2 ≠ "") ||
    decide (getCell row 3 ≠ ""))

/-- The minimum-shape skip at the top of the row loop: fewer than 5 cells,
or every cell blank. -/
def shapeSkip (row : Row) : Bool :=
  decide (row.length < 5) || row.all (fun cell => jsTrim cell = "")

/-- JavaScript `a || b` on strings: `a` unless it is empty. -/
def jsOr (a b : String) : String := if a = "" then b else a

/-- The player-stat step of a processed unit: extract `(player, prop)` from
the market text and update the player map only when the player name is
truthy. -/
def updatePlayerStats (userId market : String) (o : Outcome)
    (m : List (String × PlayerStat)) : List (String × PlayerStat) :=
  let pp := extractPlayerAndProp market
  if strOptTruthy pp.1 then applyPlayer userId (pp.1.getD "") pp.2 o m else m

/-- The prop-stat step of a processed unit: update the prop map only when
the extracted prop type is truthy. -/
def updatePropStats (userId market : String) (o : Outcome)
    (m : List (String × PropStat)) : List (String × PropStat) :=
  let pp := extractPlayerAndProp market
  if strOptTruthy pp.2 then applyProp userId (pp.2.getD "") o m else m

/--`getCell(row, COL.BET_SLIP_ID) || stem + counter++` (the increment
happens only when the fallback is taken; `nextIdCounter` gives the new
counter value). -/
def genBetId (stem explicitId : String) (counter : Nat) : String :=
  if explicitId = "" then stem ++ toString counter else explicitId

/-- Counter value after `a || counter++`: bumped only when the fallback id
was generated. -/
def nextIdCounter (explicitId : String) (counter : Nat) : Nat :=
  if explicitId = "" then counter + 1 else counter

/-- The mutable state of the row loop: the six accumulating collections
plus the open-parlay cursor (`currentParlayId`, `currentLegNumber`) and the
counter used to synthesise bet-slip ids. -/
structure ExtractState where
  singleBets : List SingleBet
  parlayHeaders : List ParlayHeader
  parlayLegs : List ParlayLeg
  teamStats : List (String × TeamStat)
  playerStats : List (String × PlayerStat)
  propStats : List (String × PropStat)
  currentParlayId : Option String
  currentLegNumber : Nat
  parlayIdCounter : Nat
  deriving Repr, DecidableEq

/-- Loop state before the first row (`parlayIdCounter` starts at 1). -/
def initState : ExtractState :=
  { singleBets := [], parlayHeaders := [], parlayLegs := [],
    teamStats := [], playerStats := [], propStats := [],
    currentParlayId := none, currentLegNumber := 0, parlayIdCounter := 1 }

/-- The parlay-header record assembled from a header row. -/
def mkParlayHeaderRec (userId betId : String) (row : Row) : ParlayHeader :=
  { userId := userId
    datePlaced := parseDate (getCell row 0)
    status := getCell row 1
    league := getCell row 2
    matchField := getCell row 3
    betType := getCell row 4
    market := getCell row 5
    selection := getCell row 6
    price := getCellAsNumber row 7
    wager := getCellAsNumber row 8
    winnings := getCellAsNumber row 9
    payout := getCellAsNumber row 10
    potentialPayout := getCellAsNumber row 11
    result := jsOr (getCell row 12) (getCell row 1)
    betSlipId := betId }

/-- The single-bet record assembled from a single-bet row (selection falls
back to the bet-type cell; result falls back to the status cell). -/
def mkSingleBetRec (userId betId : String) (row : Row) : SingleBet :=
  { userId := userId
    datePlaced := parseDate (getCell row 0)
    status := getCell row 1
    league := getCell row 2
    matchField := getCell row 3
    betType := getCell row 4
    market := getCell row 5
    selection := jsOr (getCell row 6) (getCell row 4)
    price := getCellAsNumber row 7
    wager := getCellAsNumber row 8
    winnings := getCellAsNumber row 9
    payout := getCellAsNumber row 10
    result := jsOr (getCell row 12) (getCell row 1)
    betSlipId := betId }

/-- The parlay-leg record assembled from a leg row, including the source's
two after-the-fact fix-ups: when selection is still empty and the
POTENTIAL_PAYOUT cell is not, use that cell; when market is empty and both
BET_TYPE and MARKET cells are non-empty, shift them (the latter condition
is vacuous — market *is* the MARKET cell — but is embedded as written). -/
def mkParlayLegRec (pid : String) (legNumber : Nat) (row : Row) : ParlayLeg :=
  let leg0 : ParlayLeg :=
    { parlayId := pid
      legNumber := legNumber
      status := getCell row 1
      league := getCell row 2
      matchField := getCell row 3
      market := getCell row 5
      selection := jsOr (getCell row 6) (getCell row 4)
      price := getCellAsNumber row 7
      gameDate := parseDate (getCell row 12) }
  let leg1 :=
    if leg0.selection = "" && getCell row 10 ≠ "" then
      { leg0 with selection := getCell row 10 }
    else leg0
  if leg1.market = "" && getCell row 4 ≠ "" && getCell row 5 ≠ "" then
    { leg1 with market := getCell row 4, selection := getCell row 5 }
  else leg1

/-- One iteration of the source's row loop. -/
def processRow (userId : String) (st : ExtractState) (row : Row) :
    ExtractState :=
  if shapeSkip row then st
  else if isParlay row then
    let betId := genBetId "generated-parlay-" (getCell row 13) st.parlayIdCounter
    { st with
        parlayHeaders := st.parlayHeaders ++ [mkParlayHeaderRec userId betId row]
        currentParlayId := some betId
        currentLegNumber := 0
        parlayIdCounter := nextIdCounter (getCell row 13) st.parlayIdCounter }
  else if isSingleBet row then
    let betId := genBetId "generated-single-" (getCell row 13) st.parlayIdCounter
    let bet := mkSingleBetRec userId betId row
    let o := classifySingleResult bet.result
    { st with
        singleBets := st.singleBets ++ [bet]
        teamStats := updateTeamStats userId bet.league o
          (extractTeams bet.matchField) st.teamStats
        playerStats := updatePlayerStats userId bet.market o st.playerStats
        propStats := updatePropStats userId bet.market o st.propStats
        currentParlayId := none
        parlayIdCounter := nextIdCounter (getCell row 13) st.parlayIdCounter }
  else if isParlayLeg row && strOptTruthy st.currentParlayId then
    let leg := mkParlayLegRec (st.currentParlayId.getD "")
      (st.currentLegNumber + 1) row
    let o := classifyLegStatus leg.status
    { st with
        parlayLegs := st.parlayLegs ++ [leg]
        teamStats := updateTeamStats userId leg.league o
          (extractTeams leg.matchField) st.teamStats
        playerStats := updatePlayerStats userId leg.market o st.playerStats
        propStats := updatePropStats userId leg.market o st.propStats
        currentLegNumber := st.currentLegNumber + 1 }
  else st

/-- The row loop: fold `processRow` over the rows from `initState`. -/
def runExtract (userId : String) (rows : List Row) : ExtractState :=
  rows.foldl (processRow userId) initState

/-- The six ordered output lists of `extractBettingData` (`Map.values()`
yields insertion order, which the association lists preserve). -/
structure ExtractOutput where
  singleBets : List SingleBet
  parlayHeaders : List ParlayHeader
  parlayLegs : List ParlayLeg
  teamStats : List TeamStat
  playerStats : List PlayerStat
  propStats : List PropStat
  deriving Repr, DecidableEq

/-- Source `extractBettingData rows userId`. -/
def extractBettingData (rows : List Row) (userId : String) : ExtractOutput :=
  let st := runExtract userId rows
  { singleBets := st.singleBets
    parlayHeaders := st.parlayHeaders
    parlayLegs := st.parlayLegs
    teamStats := st.teamStats.map (·.2)
    playerStats := st.playerStats.map (·.2)
    propStats := st.propStats.map (·.2) }

/-- A row that ends the current parlay's leg accumulation: it survives the
minimum-shape skip and is classified as a parlay header or a single bet. -/
def boundaryRow (r : Row) : Bool :=
  !shapeSkip r && (isParlay r || isSingleBet r)

/-- A row that is consumed as a leg while a parlay is open: it survives the
minimum-shape skip and satisfies the leg-continuation predicate. -/
def legContinuationRow (r : Row) : Bool :=
  !shapeSkip r && isParlayLeg r

/-- Counter consistency for a team entry: total equals the sum of the four
outcome counters. -/
def teamInv (t : TeamStat) : Prop :=
  t.totalBets = t.wins + t.losses + t.pushes + t.pending

/-- Counter consistency for a player entry. -/
def playerInv (p : PlayerStat) : Prop :=
  p.totalBets = p.wins + p.losses + p.pushes + p.pending

/-- Counter consistency for a prop entry. -/
def propInv (q : PropStat) : Prop :=
  q.totalBets = q.wins + q.losses + q.pushes + q.pending

/-!
Concrete rows used by the scenario theorems and witnesses below.
-/

/-- The 13-cell row of spec Scenario A. -/
def scenarioRowA : Row :=
  ["9 Feb 2025 @ 4:08pm", "Won", "NBA", "Lakers vs Celtics", "Single",
   "Moneyline", "Lakers", "1.91", "10", "19.10", "19.10", "Won",
   "1234567890123456789"]

/-- A 14-cell single-bet row whose RESULT cell reads `Loss`. -/
def lossResultRow : Row :=
  ["9 Feb 2025 @ 4:08pm", "Loss", "NBA", "Lakers vs Celtics", "Single",
   "Moneyline", "Lakers", "1.91", "10", "0", "0", "", "Loss",
   "1234567890123456789"]

/-- A 14-cell single-bet row on `Lakers vs Celtics` with league `NBA`. -/
def nbaLeagueRow : Row :=
  ["9 Feb 2025 @ 4:08pm", "Won", "NBA", "Lakers vs Celtics", "Single",
   "Moneyline", "Lakers", "1.91", "10", "19.10", "19.10", "Won", "Won",
   "1111111111111111111"]

/-- A later 14-cell single-bet row on the same teams with league `XYZ`. -/
def xyzLeagueRow : Row :=
  ["9 Feb 2025 @ 5:08pm", "Won", "XYZ", "Lakers vs Celtics", "Single",
   "Moneyline", "Lakers", "1.91", "10", "19.10", "19.10", "Won", "Won",
   "2222222222222222222"]

/-- A parlay-header row (bet type `MULTIPLE`) with an explicit slip id. -/
def parlayHeaderRow : Row :=
  ["9 Feb 2025 @ 4:08pm", "Won", "NBA", "Lakers vs Celtics, Warriors vs Nets",
   "MULTIPLE", "", "", "", "25", "", "", "120", "Won",
   "9876543210987654321"]

/-- A leg-continuation row: empty date cell, populated status/league/match. -/
def legRow : Row :=
  ["", "Won", "NBA", "Lakers vs Celtics", "Moneyline", "Lakers", "", "1.91",
   "", "", "", "", ""]

/-- A second leg-continuation row. -/
def legRowB : Row :=
  ["", "Lost", "NBA", "Warriors vs Nets", "Moneyline", "Warriors", "", "2.05",
   "", "", "", "", ""]

/-- A 3-cell all-blank row (spec Scenario D). -/
def blankShortRow : Row := ["", "", ""]

/-!
Association-list lemmas.
-/

theorem alFind_alSet {α : Type} (k t : String) (v : α)
    (m : List (String × α)) :
    alFind t (alSet k v m) = if k = t then some v else alFind t m := by
  induction m with
  | nil => by_cases h : k = t <;> simp [alSet, alFind, h]
  | cons kv rest ih =>
      obtain ⟨k', v'⟩ := kv
      by_cases h : k' = k
      · subst h
        by_cases h2 : k' = t <;> simp [alSet, alFind, h2]
      · simp only [alSet, if_neg h, alFind, ih]
        by_cases h2 : k' = t
        · subst h2
          have hkt : ¬(k = k') := fun hh => h hh.symm
          simp [hkt]
        · simp [h2]

theorem alSet_forall {α : Type} (P : α → Prop) {m : List (String × α)}
    {k : String} {v : α} (hm : ∀ kv ∈ m, P kv.2) (hv : P v) :
    ∀ kv ∈ alSet k v m, P kv.2 := by
  induction m with
  | nil =>
      intro x hx
      simp [alSet] at hx
      simp [hx, hv]
  | cons kv rest ih =>
      obtain ⟨k', v'⟩ := kv
      intro x hx
      by_cases h : k' = k
      · simp only [alSet, if_pos h] at hx
        rcases List.mem_cons.mp hx with hx | hx
        · subst hx; exact hv
        · exact hm x (List.mem_cons_of_mem _ hx)
      · simp only [alSet, if_neg h] at hx
        rcases List.mem_cons.mp hx with hx | hx
        · subst hx; exact hm (k', v') (by simp)
        · exact ih (fun y hy => hm y (List.mem_cons_of_mem _ hy)) x hx

theorem alFind_forall {α : Type} (P : α → Prop) {m : List (String × α)}
    (hm : ∀ kv ∈ m, P kv.2) {k : String} {v : α}
    (h : alFind k m = some v) : P v := by
  induction m with
  | nil => simp [alFind] at h
  | cons kv rest ih =>
      obtain ⟨k', v'⟩ := kv
      by_cases hk : k' = k
      · simp only [alFind, if_pos hk, Option.some.injEq] at h
        rw [← h]
        exact hm (k', v') (by simp)
      · simp only [alFind, if_neg hk] at h
        exact ih (fun y hy => hm y (List.mem_cons_of_mem _ hy)) h

/-!
Counter-invariant preservation.
-/

theorem bumpTeam_inv (o : Outcome) {s : TeamStat} (h : teamInv s) :
    teamInv (bumpTeam o s) := by
  cases o <;> simp [bumpTeam, addOutcomeTeam, teamInv] at h ⊢ <;> omega

theorem bumpProp_inv (o : Outcome) {s : PropStat} (h : propInv s) :
    propInv (bumpProp o s) := by
  cases o <;> simp [bumpProp, addOutcomeProp, propInv] at h ⊢ <;> omega

theorem applyTeam_forall (u lg : String) (o : Outcome) (team : String)
    {m : List (String × TeamStat)} (hm : ∀ kv ∈ m, teamInv kv.2) :
    ∀ kv ∈ applyTeam u lg o team m, teamInv kv.2 := by
  by_cases h : jsTrim team = ""
  · simpa [applyTeam, h] using hm
  · simp only [applyTeam, h, if_neg]
    refine alSet_forall _ hm (bumpTeam_inv o ?_)
    cases hf : alFind team m with
    | none => simp [teamInv]
    | some s => simpa using alFind_forall _ hm hf

theorem updateTeamStats_forall (u lg : String) (o : Outcome)
    (teams : List String) {m : List (String × TeamStat)}
    (hm : ∀ kv ∈ m, teamInv kv.2) :
    ∀ kv ∈ updateTeamStats u lg o teams m, teamInv kv.2 := by
  induction teams generalizing m with
  | nil => simpa [updateTeamStats] using hm
  | cons t rest ih =>
      simpa [updateTeamStats] using
        ih (m := applyTeam u lg o t m) (applyTeam_forall u lg o t hm)

theorem playerUpdateCore_inv (pt : Option String) (o : Outcome)
    {base : PlayerStat} (h : playerInv base) :
    playerInv (playerUpdateCore pt o base) := by
  unfold playerUpdateCore
  cases o <;>
    simp only [addOutcomePlayer, playerInv] at h ⊢ <;>
    split <;> simp <;> omega

theorem applyPlayer_forall (u p : String) (pt : Option String) (o : Outcome)
    {m : List (String × PlayerStat)} (hm : ∀ kv ∈ m, playerInv kv.2) :
    ∀ kv ∈ applyPlayer u p pt o m, playerInv kv.2 := by
  unfold applyPlayer
  refine alSet_forall _ hm (playerUpdateCore_inv pt o ?_)
  cases hf : alFind p m with
  | none => simp [playerInv]
  | some s => simpa using alFind_forall _ hm hf

theorem updatePlayerStats_forall (u market : String) (o : Outcome)
    {m : List (String × PlayerStat)} (hm : ∀ kv ∈ m, playerInv kv.2) :
    ∀ kv ∈ updatePlayerStats u market o m, playerInv kv.2 := by
  by_cases h : strOptTruthy (extractPlayerAndProp market).1 = true
  · simpa [updatePlayerStats, h] using
      applyPlayer_forall u ((extractPlayerAndProp market).1.getD "")
        (extractPlayerAndProp market).2 o hm
  · simpa [updatePlayerStats, h] using hm

theorem applyProp_forall (u p : String) (o : Outcome)
    {m : List (String × PropStat)} (hm : ∀ kv ∈ m, propInv kv.2) :
    ∀ kv ∈ applyProp u p o m, propInv kv.2 := by
  unfold applyProp
  refine alSet_forall _ hm (bumpProp_inv o ?_)
  cases hf : alFind p m with
  | none => simp [propInv]
  | some s => simpa using alFind_forall _ hm hf

theorem updatePropStats_forall (u market : String) (o : Outcome)
    {m : List (String × PropStat)} (hm : ∀ kv ∈ m, propInv kv.2) :
    ∀ kv ∈ updatePropStats u market o m, propInv kv.2 := by
  by_cases h : strOptTruthy (extractPlayerAndProp market).2 = true
  · simpa [updatePropStats, h] using
      applyProp_forall u ((extractPlayerAndProp market).2.getD "") o hm
  · simpa [updatePropStats, h] using hm

/-!
Branch behaviour of `processRow`.
-/

theorem processRow_of_shapeSkip (u : String) (st : ExtractState) (row : Row)
    (h : shapeSkip row = true) : processRow u st row = st := by
  simp [processRow, h]

theorem processRow_parlay_eq (u : String) (st : ExtractState) (row : Row)
    (h1 : shapeSkip row = false) (h2 : isParlay row = true) :
    processRow u st row =
      { st with
          parlayHeaders := st.parlayHeaders ++
            [mkParlayHeaderRec u
              (genBetId "generated-parlay-" (getCell row 13) st.parlayIdCounter)
              row]
          currentParlayId :=
            some (genBetId "generated-parlay-" (getCell row 13) st.parlayIdCounter)
          currentLegNumber := 0
          parlayIdCounter := nextIdCounter (getCell row 13) st.parlayIdCounter } := by
  simp [processRow, h1, h2]

theorem processRow_single_eq (u : String) (st : ExtractState) (row : Row)
    (h1 : shapeSkip row = false) (h2 : isParlay row = false)
    (h3 : isSingleBet row = true) :
    processRow u st row =
      { st with
          singleBets := st.singleBets ++ [mkSingleBetRec u
            (genBetId "generated-single-" (getCell row 13) st.parlayIdCounter)
            row]
          teamStats := updateTeamStats u (getCell row 2)
            (classifySingleResult (jsOr (getCell row 12) (getCell row 1)))
            (extractTeams (getCell row 3)) st.teamStats
          playerStats := updatePlayerStats u (getCell row 5)
            (classifySingleResult (jsOr (getCell row 12) (getCell row 1)))
            st.playerStats
          propStats := updatePropStats u (getCell row 5)
            (classifySingleResult (jsOr (getCell row 12) (getCell row 1)))
            st.propStats
          currentParlayId := none
          parlayIdCounter := nextIdCounter (getCell row 13) st.parlayIdCounter } := by
  simp [processRow, h1, h2, h3, mkSingleBetRec]

theorem processRow_leg_eq (u : String) (st : ExtractState) (row : Row)
    (pid : String)
    (h1 : shapeSkip row = false) (h2 : isParlay row = false)
    (h3 : isSingleBet row = false) (h4 : isParlayLeg row = true)
    (h5 : st.currentParlayId = some pid) (h6 : pid ≠ "") :
    processRow u st row =
      { st with
          parlayLegs := st.parlayLegs ++
            [mkParlayLegRec pid (st.currentLegNumber + 1) row]
          teamStats := updateTeamStats u
            (mkParlayLegRec pid (st.currentLegNumber + 1) row).league
            (classifyLegStatus
              (mkParlayLegRec pid (st.currentLegNumber + 1) row).status)
            (extractTeams
              (mkParlayLegRec pid (st.currentLegNumber + 1) row).matchField)
            st.teamStats
          playerStats := updatePlayerStats u
            (mkParlayLegRec pid (st.currentLegNumber + 1) row).market
            (classifyLegStatus
              (mkParlayLegRec pid (st.currentLegNumber + 1) row).status)
            st.playerStats
          propStats := updatePropStats u
            (mkParlayLegRec pid (st.currentLegNumber + 1) row).market
            (classifyLegStatus
              (mkParlayLegRec pid (st.currentLegNumber + 1) row).status)
            st.propStats
          currentLegNumber := st.currentLegNumber + 1 } := by
  simp [processRow, h1, h2, h3, h4, h5, strOptTruthy, h6]

theorem processRow_id (u : String) (st : ExtractState) (row : Row)
    (h1 : shapeSkip row = false) (h2 : isParlay row = false)
    (h3 : isSingleBet row = false)
    (h4 : isParlayLeg row = false ∨ strOptTruthy st.currentParlayId = false) :
    processRow u st row = st := by
  rcases h4 with h4 | h4 <;> simp [processRow, h1, h2, h3, h4]

/-- A row satisfying the leg-continuation predicate has an empty date cell,
so it is neither a parlay header nor a single bet (both require a date-like
date cell). -/
theorem legRow_not_boundary (row : Row) (h : isParlayLeg row = true) :
    isParlay row = false ∧ isSingleBet row = false := by
  have hdate : getCell row 0 = "" := by
    simp only [isParlayLeg, Bool.and_eq_true, decide_eq_true_eq] at h
    exact h.1.2
  have hds : isDateString (getCell row 0) = false := by
    rw [hdate]; rfl
  constructor
  · simp [isParlay, hds]
  · simp [isSingleBet, hds]

/-- Generated bet-slip ids are never the empty string. -/
theorem genBetId_ne_empty (stem ex : String) (cnt : Nat)
    (hstem : stem ≠ "") : genBetId stem ex cnt ≠ "" := by
  unfold genBetId
  split
  · intro hcontra
    apply hstem
    have hd := congrArg String.data hcontra
    rw [String.data_append] at hd
    rcases List.append_eq_nil.mp hd with ⟨hd1, _⟩
    cases stem with
    | mk l => simpa [String.ext_iff] using hd1
  · intro hcontra
    exact absurd hcontra (by assumption)

set_option maxHeartbeats 1600000 in
theorem processRow_invs (u : String) (st : ExtractState) (row : Row)
    (hT : ∀ kv ∈ st.teamStats, teamInv kv.2)
    (hP : ∀ kv ∈ st.playerStats, playerInv kv.2)
    (hQ : ∀ kv ∈ st.propStats, propInv kv.2) :
    (∀ kv ∈ (processRow u st row).teamStats, teamInv kv.2) ∧
    (∀ kv ∈ (processRow u st row).playerStats, playerInv kv.2) ∧
    (∀ kv ∈ (processRow u st row).propStats, propInv kv.2) := by
  by_cases hs : shapeSkip row = true
  · rw [processRow_of_shapeSkip u st row hs]
    exact ⟨hT, hP, hQ⟩
  · rw [Bool.not_eq_true] at hs
    by_cases hp : isParlay row = true
    · rw [processRow_parlay_eq u st row hs hp]
      exact ⟨hT, hP, hQ⟩
    · rw [Bool.not_eq_true] at hp
      by_cases hsb : isSingleBet row = true
      · rw [processRow_single_eq u st row hs hp hsb]
        exact ⟨updateTeamStats_forall _ _ _ _ hT,
               updatePlayerStats_forall _ _ _ hP,
               updatePropStats_forall _ _ _ hQ⟩
      · rw [Bool.not_eq_true] at hsb
        by_cases hl : (isParlayLeg row && strOptTruthy st.currentParlayId) = true
        · rw [Bool.and_eq_true] at hl
          obtain ⟨hl1, hl2⟩ := hl
          obtain ⟨pid, hpid, hne⟩ :
              ∃ pid, st.currentParlayId = some pid ∧ pid ≠ "" := by
            cases hcp : st.currentParlayId with
            | none => rw [hcp] at hl2; simp [strOptTruthy] at hl2
            | some s =>
                rw [hcp] at hl2
                simp only [strOptTruthy, decide_eq_true_eq] at hl2
                exact ⟨s, rfl, hl2⟩
          rw [processRow_leg_eq u st row pid hs hp hsb hl1 hpid hne]
          exact ⟨updateTeamStats_forall _ _ _ _ hT,
                 updatePlayerStats_forall _ _ _ hP,
                 updatePropStats_forall _ _ _ hQ⟩
        · rw [Bool.not_eq_true, Bool.and_eq_false_iff] at hl
          rw [processRow_id u st row hs hp hsb hl]
          exact ⟨hT, hP, hQ⟩

theorem foldl_invs (u : String) (rows : List Row) :
    ∀ st : ExtractState,
    (∀ kv ∈ st.teamStats, teamInv kv.2) →
    (∀ kv ∈ st.playerStats, playerInv kv.2) →
    (∀ kv ∈ st.propStats, propInv kv.2) →
    (∀ kv ∈ (rows.foldl (processRow u) st).teamStats, teamInv kv.2) ∧
    (∀ kv ∈ (rows.foldl (processRow u) st).playerStats, playerInv kv.2) ∧
    (∀ kv ∈ (rows.foldl (processRow u) st).propStats, propInv kv.2) := by
  induction rows with
  | nil => intro st hT hP hQ; exact ⟨hT, hP, hQ⟩
  | cons r rest ih =>
      intro st hT hP hQ
      obtain ⟨hT', hP', hQ'⟩ := processRow_invs u st r hT hP hQ
      simpa [List.foldl_cons] using ih (processRow u st r) hT' hP' hQ'

theorem processRow_legs_mono (u : String) (st : ExtractState) (row : Row) :
    ∃ d, (processRow u st row).parlayLegs = st.parlayLegs ++ d := by
  by_cases hs : shapeSkip row = true
  · exact ⟨[], by rw [processRow_of_shapeSkip u st row hs]; simp⟩
  · rw [Bool.not_eq_true] at hs
    by_cases hp : isParlay row = true
    · exact ⟨[], by rw [processRow_parlay_eq u st row hs hp]; simp⟩
    · rw [Bool.not_eq_true] at hp
      by_cases hsb : isSingleBet row = true
      · exact ⟨[], by rw [processRow_single_eq u st row hs hp hsb]; simp⟩
      · rw [Bool.not_eq_true] at hsb
        by_cases hl : (isParlayLeg row && strOptTruthy st.currentParlayId) = true
        · rw [Bool.and_eq_true] at hl
          obtain ⟨hl1, hl2⟩ := hl
          obtain ⟨pid, hpid, hne⟩ :
              ∃ pid, st.currentParlayId = some pid ∧ pid ≠ "" := by
            cases hcp : st.currentParlayId with
            | none => rw [hcp] at hl2; simp [strOptTruthy] at hl2
            | some s =>
                rw [hcp] at hl2
                simp only [strOptTruthy, decide_eq_true_eq] at hl2
                exact ⟨s, rfl, hl2⟩
          exact ⟨[mkParlayLegRec pid (st.currentLegNumber + 1) row],
            by rw [processRow_leg_eq u st row pid hs hp hsb hl1 hpid hne]⟩
        · rw [Bool.not_eq_true, Bool.and_eq_false_iff] at hl
          exact ⟨[], by rw [processRow_id u st row hs hp hsb hl]; simp⟩

theorem foldl_legs_mono (u : String) (rows : List Row) :
    ∀ st : ExtractState,
    ∃ d, (rows.foldl (processRow u) st).parlayLegs = st.parlayLegs ++ d := by
  induction rows with
  | nil => intro st; exact ⟨[], by simp⟩
  | cons r rest ih =>
      intro st
      obtain ⟨d1, hd1⟩ := processRow_legs_mono u st r
      obtain ⟨d2, hd2⟩ := ih (processRow u st r)
      exact ⟨d1 ++ d2, by simp [List.foldl_cons, hd2, hd1]⟩

theorem mkParlayLegRec_legNumber (pid : String) (n : Nat) (row : Row) :
    (mkParlayLegRec pid n row).legNumber = n := by
  unfold mkParlayLegRec
  dsimp only
  split <;> split <;> rfl

theorem mkParlayLegRec_parlayId (pid : String) (n : Nat) (row : Row) :
    (mkParlayLegRec pid n row).parlayId = pid := by
  unfold mkParlayLegRec
  dsimp only
  split <;> split <;> rfl

/-- Processing a run of non-boundary rows while a parlay is open: the
cursor is preserved, the leg counter advances by the number of
leg-continuation rows, and exactly those rows append legs, numbered
consecutively from the incoming counter plus one and all referencing the
open parlay; headers and single bets are untouched. -/
theorem window_fold (u : String) (ws : List Row) :
    ∀ (st : ExtractState) (pid : String),
    st.currentParlayId = some pid → pid ≠ "" →
    (∀ r ∈ ws, boundaryRow r = false) →
    ∃ L : List ParlayLeg,
      (ws.foldl (processRow u) st).parlayLegs = st.parlayLegs ++ L ∧
      L.map (fun l => l.legNumber) =
        List.range' (st.currentLegNumber + 1)
          (ws.filter legContinuationRow).length ∧
      (∀ l ∈ L, l.parlayId = pid) ∧
      (ws.foldl (processRow u) st).currentParlayId = some pid ∧
      (ws.foldl (processRow u) st).currentLegNumber =
        st.currentLegNumber + (ws.filter legContinuationRow).length ∧
      (ws.foldl (processRow u) st).parlayHeaders = st.parlayHeaders ∧
      (ws.foldl (processRow u) st).singleBets = st.singleBets := by
  induction ws with
  | nil =>
      intro st pid h1 _ _
      exact ⟨[], by simp, by simp, by simp, h1, by simp, rfl, rfl⟩
  | cons r rest ih =>
      intro st pid h1 h2 h3
      have hb : boundaryRow r = false := h3 r (by simp)
      by_cases hs : shapeSkip r = true
      · have hstep : processRow u st r = st := processRow_of_shapeSkip u st r hs
        have hfilter : legContinuationRow r = false := by
          simp [legContinuationRow, hs]
        obtain ⟨L, hL⟩ := ih st pid h1 h2 (fun x hx => h3 x (by simp [hx]))
        exact ⟨L, by simpa [List.foldl_cons, hstep, hfilter] using hL⟩
      · rw [Bool.not_eq_true] at hs
        have hps : isParlay r = false ∧ isSingleBet r = false := by
          simp only [boundaryRow, hs, Bool.not_false, Bool.true_and,
            Bool.or_eq_false_iff] at hb
          exact hb
        by_cases hl : isParlayLeg r = true
        · have hstep := processRow_leg_eq u st r pid hs hps.1 hps.2 hl h1 h2
          have hfilter : legContinuationRow r = true := by
            simp [legContinuationRow, hs, hl]
          have hlen : ((r :: rest).filter legContinuationRow).length =
              (rest.filter legContinuationRow).length + 1 := by
            simp [List.filter_cons, hfilter]
          have hcur : (processRow u st r).currentParlayId = some pid := by
            rw [hstep]; exact h1
          have hn : (processRow u st r).currentLegNumber =
              st.currentLegNumber + 1 := by rw [hstep]
          have hlegs : (processRow u st r).parlayLegs =
              st.parlayLegs ++ [mkParlayLegRec pid (st.currentLegNumber + 1) r] := by
            rw [hstep]
          have hheads : (processRow u st r).parlayHeaders = st.parlayHeaders := by
            rw [hstep]
          have hsingles : (processRow u st r).singleBets = st.singleBets := by
            rw [hstep]
          obtain ⟨L', hL1, hL2, hL3, hL4, hL5, hL6, hL7⟩ :=
            ih (processRow u st r) pid hcur h2 (fun x hx => h3 x (by simp [hx]))
          refine ⟨mkParlayLegRec pid (st.currentLegNumber + 1) r :: L',
            ?_, ?_, ?_, ?_, ?_, ?_, ?_⟩
          · rw [List.foldl_cons, hL1, hlegs]
            simp
          · rw [List.map_cons, hL2, hn, mkParlayLegRec_legNumber,
              hlen, List.range'_succ]
          · intro l hlmem
            rcases List.mem_cons.mp hlmem with hlm | hlm
            · rw [hlm, mkParlayLegRec_parlayId]
            · exact hL3 l hlm
          · rw [List.foldl_cons]; exact hL4
          · rw [List.foldl_cons, hL5, hn, hlen]
            omega
          · rw [List.foldl_cons, hL6, hheads]
          · rw [List.foldl_cons, hL7, hsingles]
        · rw [Bool.not_eq_true] at hl
          have hstep : processRow u st r = st :=
            processRow_id u st r hs hps.1 hps.2 (Or.inl hl)
          have hfilter : legContinuationRow r = false := by
            simp [legContinuationRow, hl]
          obtain ⟨L, hL⟩ := ih st pid h1 h2 (fun x hx => h3 x (by simp [hx]))
          exact ⟨L, by simpa [List.foldl_cons, hstep, hfilter] using hL⟩

/-!
League is written only at entry creation: once a team entry exists, no
later update changes its league.
-/

theorem bumpTeam_league (o : Outcome) (s : TeamStat) :
    (bumpTeam o s).league = s.league := by
  cases o <;> rfl

theorem applyTeam_league (u lg : String) (o : Outcome) (tm t : String)
    {m : List (String × TeamStat)} {s : TeamStat}
    (h : alFind t m = some s) :
    ∃ s', alFind t (applyTeam u lg o tm m) = some s' ∧
      s'.league = s.league := by
  by_cases hb : jsTrim tm = ""
  · exact ⟨s, by simpa [applyTeam, hb] using h, rfl⟩
  · simp only [applyTeam, hb, if_neg, ite_false]
    rw [alFind_alSet]
    by_cases he : tm = t
    · subst he
      rw [if_pos rfl]
      refine ⟨_, rfl, ?_⟩
      rw [bumpTeam_league]
      simp [h]
    · rw [if_neg he]
      exact ⟨s, h, rfl⟩

theorem updateTeamStats_league (u lg : String) (o : Outcome)
    (teams : List String) (t : String) :
    ∀ {m : List (String × TeamStat)} {s : TeamStat},
    alFind t m = some s →
    ∃ s', alFind t (updateTeamStats u lg o teams m) = some s' ∧
      s'.league = s.league := by
  induction teams with
  | nil => intro m s h; exact ⟨s, by simpa [updateTeamStats] using h, rfl⟩
  | cons tm rest ih =>
      intro m s h
      obtain ⟨s1, hs1, hlg1⟩ := applyTeam_league u lg o tm t h
      obtain ⟨s2, hs2, hlg2⟩ := ih hs1
      exact ⟨s2, by simpa [updateTeamStats] using hs2, hlg2.trans hlg1⟩

theorem processRow_league (u : String) (st : ExtractState) (row : Row)
    (t : String) {s : TeamStat} (h : alFind t st.teamStats = some s) :
    ∃ s', alFind t (processRow u st row).teamStats = some s' ∧
      s'.league = s.league := by
  by_cases hs : shapeSkip row = true
  · exact ⟨s, by rw [processRow_of_shapeSkip u st row hs]; exact h, rfl⟩
  · rw [Bool.not_eq_true] at hs
    by_cases hp : isParlay row = true
    · exact ⟨s, by rw [processRow_parlay_eq u st row hs hp]; exact h, rfl⟩
    · rw [Bool.not_eq_true] at hp
      by_cases hsb : isSingleBet row = true
      · obtain ⟨s', hs', hlg⟩ := updateTeamStats_league u (getCell row 2)
          (classifySingleResult (jsOr (getCell row 12) (getCell row 1)))
          (extractTeams (getCell row 3)) t h
        exact ⟨s', by rw [processRow_single_eq u st row hs hp hsb]; exact hs', hlg⟩
      · rw [Bool.not_eq_true] at hsb
        by_cases hl : (isParlayLeg row && strOptTruthy st.currentParlayId) = true
        · rw [Bool.and_eq_true] at hl
          obtain ⟨hl1, hl2⟩ := hl
          obtain ⟨pid, hpid, hne⟩ :
              ∃ pid, st.currentParlayId = some pid ∧ pid ≠ "" := by
            cases hcp : st.currentParlayId with
            | none => rw [hcp] at hl2; simp [strOptTruthy] at hl2
            | some a =>
                rw [hcp] at hl2
                simp only [strOptTruthy, decide_eq_true_eq] at hl2
                exact ⟨a, rfl, hl2⟩
          obtain ⟨s', hs', hlg⟩ := updateTeamStats_league u
            (mkParlayLegRec pid (st.currentLegNumber + 1) row).league
            (classifyLegStatus
              (mkParlayLegRec pid (st.currentLegNumber + 1) row).status)
            (extractTeams
              (mkParlayLegRec pid (st.currentLegNumber + 1) row).matchField)
            t h
          exact ⟨s', by
            rw [processRow_leg_eq u st row pid hs hp hsb hl1 hpid hne]
            exact hs', hlg⟩
        · rw [Bool.not_eq_true, Bool.and_eq_false_iff] at hl
          exact ⟨s, by rw [processRow_id u st row hs hp hsb hl]; exact h, rfl⟩

theorem foldl_league (u : String) (rows : List Row) (t : String) :
    ∀ {st : ExtractState} {s : TeamStat},
    alFind t st.teamStats = some s →
    ∃ s', alFind t ((rows.foldl (processRow u) st).teamStats) = some s' ∧
      s'.league = s.league := by
  induction rows with
  | nil => intro st s h; exact ⟨s, h, rfl⟩
  | cons r rest ih =>
      intro st s h
      obtain ⟨s1, hs1, hlg1⟩ := processRow_league u st r t h
      obtain ⟨s2, hs2, hlg2⟩ := ih hs1
      exact ⟨s2, by simpa [List.foldl_cons] using hs2, hlg2.trans hlg1⟩

/-!
Claim theorems.
-/

/-- Claim C1, counterexample.  On the 13-cell Scenario A row the claim
asserts the produced single bet has `result = "Won"` and that the two team
entries have `wins = 1`; both fail: the row has no cell at index 13, so the
RESULT column (index 12) holds the bet-slip id and the outcome classifies
as pending. -/
theorem claim_C1_counterexample :
    ¬((extractBettingData [scenarioRowA] "user-1").singleBets.map
        (fun b => b.result) = ["Won"] ∧
      (extractBettingData [scenarioRowA] "user-1").teamStats.map
        (fun t => t.wins) = [1, 1]) := by
  decide

/-- Claim C1, amended.  The Scenario A row produces exactly one `SingleBet`
with `wager = 10` and `winnings = 19.10` as claimed, but with
`result = "1234567890123456789"` (the 13-cell row leaves the RESULT column
holding the bet-slip id), and exactly two `TeamStat` entries, for Lakers
and Celtics, each with `totalBets = 1` and `pending = 1` (not `wins = 1`:
the result text matches none of the outcome substrings). -/
theorem claim_C1 :
    (extractBettingData [scenarioRowA] "user-1").singleBets.map
      (fun b => b.result) = ["1234567890123456789"] ∧
    (extractBettingData [scenarioRowA] "user-1").singleBets.map
      (fun b => b.wager) = [some (JSNum.num 10)] ∧
    (extractBettingData [scenarioRowA] "user-1").singleBets.map
      (fun b => b.winnings) = [some (JSNum.num (mkRat 191 10))] ∧
    (extractBettingData [scenarioRowA] "user-1").teamStats.map
      (fun t => t.team) = ["Lakers", "Celtics"] ∧
    (extractBettingData [scenarioRowA] "user-1").teamStats.map
      (fun t => t.totalBets) = [1, 1] ∧
    (extractBettingData [scenarioRowA] "user-1").teamStats.map
      (fun t => t.wins) = [0, 0] ∧
    (extractBettingData [scenarioRowA] "user-1").teamStats.map
      (fun t => t.losses) = [0, 0] ∧
    (extractBettingData [scenarioRowA] "user-1").teamStats.map
      (fun t => t.pushes) = [0, 0] ∧
    (extractBettingData [scenarioRowA] "user-1").teamStats.map
      (fun t => t.pending) = [1, 1] := by
  decide

/-- Claim C6: a row with fewer than 5 cells, or with all cells blank, is
skipped by the minimum-shape check without touching any state, so the
whole extraction output equals the output on the input with that row
removed. -/
theorem claim_C6 (u : String) (pre post : List Row) (r : Row)
    (h : r.length < 5 ∨ ∀ c ∈ r, jsTrim c = "") :
    extractBettingData (pre ++ r :: post) u =
      extractBettingData (pre ++ post) u := by
  have hs : shapeSkip r = true := by
    rcases h with h | h
    · simp [shapeSkip, h]
    · have hall : r.all (fun cell => jsTrim cell = "") = true := by
        rw [List.all_eq_true]
        intro c hc
        simpa using h c hc
      simp [shapeSkip, hall]
  have e : runExtract u (pre ++ r :: post) = runExtract u (pre ++ post) := by
    unfold runExtract
    rw [List.foldl_append, List.foldl_append, List.foldl_cons,
      processRow_of_shapeSkip u _ r hs]
  simp [extractBettingData, e]

/-- Claim C6, witness: Scenario D's 3-cell all-blank row inserted after a
regular single-bet row changes nothing. -/
theorem claim_C6_witness :
    extractBettingData ([nbaLeagueRow] ++ blankShortRow :: []) "u1" =
      extractBettingData ([nbaLeagueRow] ++ []) "u1" :=
  claim_C6 "u1" [nbaLeagueRow] [] blankShortRow (Or.inr (by decide))

/-- Claim C7: `parseDate` maps `"9 Feb 2025 @ 4:08pm"` to a valid date
with year 2025, month index 1 (February, JS months are 0-based), day 9,
16:08 local time, and maps `"garbage"` to `null`; being a total Lean
function, it throws nothing. -/
theorem claim_C7 :
    parseDate "9 Feb 2025 @ 4:08pm" =
      some { year := 2025, month := 1, day := 9, hour := 16, minute := 8 } ∧
    parseDate "garbage" = none := by
  decide

/-- Claim C8, counterexample.  The claim says `getCellAsNumber` returns
`undefined` whenever the parsed value is not finite, but the source only
filters NaN (`isNaN`), not Infinity: the cell `"Infinity"` yields
`Infinity`, which is not finite. -/
theorem claim_C8_counterexample :
    getCellAsNumber ["Infinity"] 0 = some JSNum.inf ∧
    JSNum.isFinite JSNum.inf = false := by
  decide

/-- Claim C8, amended: `getCellAsNumber` strips all `$` and `,` characters
and parses the remainder as floating point, returning `undefined` exactly
when the cell is blank or the parse yields NaN; a non-finite Infinity
result is passed through, not filtered. -/
theorem claim_C8 (row : Row) (index : Nat) :
    (getCellAsNumber row index = none ↔
      (getCell row index = "" ∨
        jsParseFloat (stripCurrency (getCell row index)) = JSNum.nan)) ∧
    getCellAsNumber row index ≠ some JSNum.nan ∧
    (getCellAsNumber row index = none ∨
      getCellAsNumber row index =
        some (jsParseFloat (stripCurrency (getCell row index)))) := by
  by_cases hv : getCell row index = ""
  · simp [getCellAsNumber, hv]
  · by_cases hn : jsParseFloat (stripCurrency (getCell row index)) = JSNum.nan
    · simp [getCellAsNumber, hv, hn]
    · simp [getCellAsNumber, hv, hn]

/-- Claim C9, counterexample.  Two single bets on `Lakers vs Celtics`, the
first with league `NBA` and the second with league `XYZ`: the final team
entries record `NBA` — the league of the first bet mentioning each team —
not the last-seen `XYZ` the claim asserts. -/
theorem claim_C9_counterexample :
    (extractBettingData [nbaLeagueRow, xyzLeagueRow] "u1").teamStats.map
      (fun t => t.league) = ["NBA", "NBA"] ∧
    (extractBettingData [nbaLeagueRow, xyzLeagueRow] "u1").teamStats.map
      (fun t => t.league) ≠ ["XYZ", "XYZ"] := by
  decide

/-- Claim C9, amended: a team entry's league is fixed when the entry is
created by the first processed bet/leg mentioning the team, and no later
processed row changes it (first-seen, not last-seen). -/
theorem claim_C9 (u team lg : String) (pre more : List Row)
    (h : (alFind team (runExtract u pre).teamStats).map (fun t => t.league) =
      some lg) :
    (alFind team (runExtract u (pre ++ more)).teamStats).map
      (fun t => t.league) = some lg := by
  cases hf : alFind team (runExtract u pre).teamStats with
  | none => rw [hf] at h; simp at h
  | some s =>
      rw [hf] at h
      have hlg0 : s.league = lg := by simpa using h
      obtain ⟨s', hs', hlg⟩ := foldl_league u more team hf
      have e : runExtract u (pre ++ more) =
          more.foldl (processRow u) (runExtract u pre) := by
        unfold runExtract
        rw [List.foldl_append]
      rw [e, hs']
      simpa using hlg.trans hlg0

/-- Claim C9, witness: after the `NBA` bet creates the Lakers entry, the
later `XYZ` bet leaves its league at `NBA`. -/
theorem claim_C9_witness :
    (alFind "Lakers"
        (runExtract "u1" ([nbaLeagueRow] ++ [xyzLeagueRow])).teamStats).map
      (fun t => t.league) = some "NBA" :=
  claim_C9 "u1" "Lakers" "NBA" [nbaLeagueRow] [xyzLeagueRow] (by decide)

/-- Claim C10: a row satisfying the leg-continuation predicate that
arrives while no parlay is open produces no record and leaves every output
collection exactly as if the row were absent. -/
theorem claim_C10 (u : String) (pre post : List Row) (r : Row)
    (hctx : (runExtract u pre).currentParlayId = none)
    (hr : isParlayLeg r = true) :
    extractBettingData (pre ++ r :: post) u =
      extractBettingData (pre ++ post) u := by
  have hnb := legRow_not_boundary r hr
  have hstep : processRow u (runExtract u pre) r = runExtract u pre := by
    by_cases hs : shapeSkip r = true
    · exact processRow_of_shapeSkip _ _ _ hs
    · rw [Bool.not_eq_true] at hs
      refine processRow_id u _ r hs hnb.1 hnb.2 (Or.inr ?_)
      rw [hctx]
      rfl
  have e : runExtract u (pre ++ r :: post) = runExtract u (pre ++ post) := by
    unfold runExtract at hstep ⊢
    rw [List.foldl_append, List.foldl_append, List.foldl_cons, hstep]
  simp [extractBettingData, e]

/-- Claim C10, witness: a leg-continuation row after a single-bet row
(which closed any parlay context) is ignored entirely. -/
theorem claim_C10_witness :
    extractBettingData ([nbaLeagueRow] ++ legRow :: []) "u1" =
      extractBettingData ([nbaLeagueRow] ++ []) "u1" :=
  claim_C10 "u1" [nbaLeagueRow] [] legRow (by decide) (by decide)

/-- Claim C2: at the end of every run, each team, player and prop entry
satisfies `totalBets = wins + losses + pushes + pending`; and each
processed unit's update on a touched entry adds 1 to `totalBets` and 1 to
exactly one of the four outcome counters (stated for the three per-entry
update cores the row loop uses: `bumpTeam`, `playerUpdateCore`,
`bumpProp`). -/
theorem claim_C2 (rows : List Row) (u : String) :
    (∀ t ∈ (extractBettingData rows u).teamStats,
      t.totalBets = t.wins + t.losses + t.pushes + t.pending) ∧
    (∀ p ∈ (extractBettingData rows u).playerStats,
      p.totalBets = p.wins + p.losses + p.pushes + p.pending) ∧
    (∀ q ∈ (extractBettingData rows u).propStats,
      q.totalBets = q.wins + q.losses + q.pushes + q.pending) ∧
    (∀ (o : Outcome) (t : TeamStat),
      (bumpTeam o t).totalBets = t.totalBets + 1 ∧
      (((bumpTeam o t).wins = t.wins + 1 ∧ (bumpTeam o t).losses = t.losses ∧
          (bumpTeam o t).pushes = t.pushes ∧
          (bumpTeam o t).pending = t.pending) ∨
       ((bumpTeam o t).wins = t.wins ∧ (bumpTeam o t).losses = t.losses + 1 ∧
          (bumpTeam o t).pushes = t.pushes ∧
          (bumpTeam o t).pending = t.pending) ∨
       ((bumpTeam o t).wins = t.wins ∧ (bumpTeam o t).losses = t.losses ∧
          (bumpTeam o t).pushes = t.pushes + 1 ∧
          (bumpTeam o t).pending = t.pending) ∨
       ((bumpTeam o t).wins = t.wins ∧ (bumpTeam o t).losses = t.losses ∧
          (bumpTeam o t).pushes = t.pushes ∧
          (bumpTeam o t).pending = t.pending + 1))) ∧
    (∀ (pt : Option String) (o : Outcome) (p : PlayerStat),
      (playerUpdateCore pt o p).totalBets = p.totalBets + 1 ∧
      (((playerUpdateCore pt o p).wins = p.wins + 1 ∧
          (playerUpdateCore pt o p).losses = p.losses ∧
          (playerUpdateCore pt o p).pushes = p.pushes ∧
          (playerUpdateCore pt o p).pending = p.pending) ∨
       ((playerUpdateCore pt o p).wins = p.wins ∧
          (playerUpdateCore pt o p).losses = p.losses + 1 ∧
          (playerUpdateCore pt o p).pushes = p.pushes ∧
          (playerUpdateCore pt o p).pending = p.pending) ∨
       ((playerUpdateCore pt o p).wins = p.wins ∧
          (playerUpdateCore pt o p).losses = p.losses ∧
          (playerUpdateCore pt o p).pushes = p.pushes + 1 ∧
          (playerUpdateCore pt o p).pending = p.pending) ∨
       ((playerUpdateCore pt o p).wins = p.wins ∧
          (playerUpdateCore pt o p).losses = p.losses ∧
          (playerUpdateCore pt o p).pushes = p.pushes ∧
          (playerUpdateCore pt o p).pending = p.pending + 1))) ∧
    (∀ (o : Outcome) (q : PropStat),
      (bumpProp o q).totalBets = q.totalBets + 1 ∧
      (((bumpProp o q).wins = q.wins + 1 ∧ (bumpProp o q).losses = q.losses ∧
          (bumpProp o q).pushes = q.pushes ∧
          (bumpProp o q).pending = q.pending) ∨
       ((bumpProp o q).wins = q.wins ∧ (bumpProp o q).losses = q.losses + 1 ∧
          (bumpProp o q).pushes = q.pushes ∧
          (bumpProp o q).pending = q.pending) ∨
       ((bumpProp o q).wins = q.wins ∧ (bumpProp o q).losses = q.losses ∧
          (bumpProp o q).pushes = q.pushes + 1 ∧
          (bumpProp o q).pending = q.pending) ∨
       ((bumpProp o q).wins = q.wins ∧ (bumpProp o q).losses = q.losses ∧
          (bumpProp o q).pushes = q.pushes ∧
          (bumpProp o q).pending = q.pending + 1))) := by
  obtain ⟨hT, hP, hQ⟩ := foldl_invs u rows initState
    (by intro kv hkv; simp [initState] at hkv)
    (by intro kv hkv; simp [initState] at hkv)
    (by intro kv hkv; simp [initState] at hkv)
  refine ⟨?_, ?_, ?_, ?_, ?_, ?_⟩
  · intro t ht
    simp only [extractBettingData, runExtract, List.mem_map] at ht
    obtain ⟨kv, hkv, rfl⟩ := ht
    exact hT kv hkv
  · intro p hp
    simp only [extractBettingData, runExtract, List.mem_map] at hp
    obtain ⟨kv, hkv, rfl⟩ := hp
    exact hP kv hkv
  · intro q hq
    simp only [extractBettingData, runExtract, List.mem_map] at hq
    obtain ⟨kv, hkv, rfl⟩ := hq
    exact hQ kv hkv
  · intro o t
    cases o with
    | wins => exact ⟨rfl, Or.inl ⟨rfl, rfl, rfl, rfl⟩⟩
    | losses => exact ⟨rfl, Or.inr (Or.inl ⟨rfl, rfl, rfl, rfl⟩)⟩
    | pushes => exact ⟨rfl, Or.inr (Or.inr (Or.inl ⟨rfl, rfl, rfl, rfl⟩))⟩
    | pending => exact ⟨rfl, Or.inr (Or.inr (Or.inr ⟨rfl, rfl, rfl, rfl⟩))⟩
  · intro pt o p
    cases o with
    | wins =>
        unfold playerUpdateCore
        dsimp only
        split <;> exact ⟨rfl, Or.inl ⟨rfl, rfl, rfl, rfl⟩⟩
    | losses =>
        unfold playerUpdateCore
        dsimp only
        split <;> exact ⟨rfl, Or.inr (Or.inl ⟨rfl, rfl, rfl, rfl⟩)⟩
    | pushes =>
        unfold playerUpdateCore
        dsimp only
        split <;> exact ⟨rfl, Or.inr (Or.inr (Or.inl ⟨rfl, rfl, rfl, rfl⟩))⟩
    | pending =>
        unfold playerUpdateCore
        dsimp only
        split <;> exact ⟨rfl, Or.inr (Or.inr (Or.inr ⟨rfl, rfl, rfl, rfl⟩))⟩
  · intro o q
    cases o with
    | wins => exact ⟨rfl, Or.inl ⟨rfl, rfl, rfl, rfl⟩⟩
    | losses => exact ⟨rfl, Or.inr (Or.inl ⟨rfl, rfl, rfl, rfl⟩)⟩
    | pushes => exact ⟨rfl, Or.inr (Or.inr (Or.inl ⟨rfl, rfl, rfl, rfl⟩))⟩
    | pending => exact ⟨rfl, Or.inr (Or.inr (Or.inr ⟨rfl, rfl, rfl, rfl⟩))⟩

/-- Claim C2, witness: on the Scenario A input the totals column equals
the counter sums entrywise. -/
theorem claim_C2_witness :
    (extractBettingData [scenarioRowA] "u1").teamStats.map
      (fun t => t.totalBets) =
    (extractBettingData [scenarioRowA] "u1").teamStats.map
      (fun t => t.wins + t.losses + t.pushes + t.pending) :=
  List.map_congr_left (fun t ht => (claim_C2 [scenarioRowA] "u1").1 t ht)

/-- Claim C3, counterexample.  The claim says any result text containing
`los` increments losses, but the source checks only `lost`/`lose`: a
single bet whose result is `Loss` (which contains `los`) increments
pending on both touched team entries and leaves losses at 0. -/
theorem claim_C3_counterexample :
    strContains (lowerStr "Loss") "los" = true ∧
    (extractBettingData [lossResultRow] "u1").teamStats.map
      (fun t => t.losses) = [0, 0] ∧
    (extractBettingData [lossResultRow] "u1").teamStats.map
      (fun t => t.pending) = [1, 1] := by
  decide

/-- Claim C3, amended.  The counter is chosen by case-insensitive
substring match, but with these substrings and in this order: the
single-bet branch checks `won`/`win` then `lost`/`lose` then `push`, else
pending; the parlay-leg branch checks `win` (only) then `lose`/`lost`
then `push`, else pending.  On every touched entry the update adds 1 to
exactly the counter named by that classification (stated for the three
update cores the row loop uses). -/
theorem claim_C3 (r s : String) (t : TeamStat) (p : PlayerStat)
    (q : PropStat) (pt : Option String) :
    (classifySingleResult r = Outcome.wins ↔
      (strContains (lowerStr r) "won" = true ∨
       strContains (lowerStr r) "win" = true)) ∧
    (classifySingleResult r = Outcome.losses ↔
      (¬(strContains (lowerStr r) "won" = true ∨
         strContains (lowerStr r) "win" = true) ∧
       (strContains (lowerStr r) "lost" = true ∨
        strContains (lowerStr r) "lose" = true))) ∧
    (classifySingleResult r = Outcome.pushes ↔
      (¬(strContains (lowerStr r) "won" = true ∨
         strContains (lowerStr r) "win" = true) ∧
       ¬(strContains (lowerStr r) "lost" = true ∨
         strContains (lowerStr r) "lose" = true) ∧
       strContains (lowerStr r) "push" = true)) ∧
    (classifySingleResult r = Outcome.pending ↔
      (¬(strContains (lowerStr r) "won" = true ∨
         strContains (lowerStr r) "win" = true) ∧
       ¬(strContains (lowerStr r) "lost" = true ∨
         strContains (lowerStr r) "lose" = true) ∧
       ¬strContains (lowerStr r) "push" = true)) ∧
    (classifyLegStatus s = Outcome.wins ↔
      strContains (lowerStr s) "win" = true) ∧
    (classifyLegStatus s = Outcome.losses ↔
      (¬strContains (lowerStr s) "win" = true ∧
       (strContains (lowerStr s) "lose" = true ∨
        strContains (lowerStr s) "lost" = true))) ∧
    (classifyLegStatus s = Outcome.pushes ↔
      (¬strContains (lowerStr s) "win" = true ∧
       ¬(strContains (lowerStr s) "lose" = true ∨
         strContains (lowerStr s) "lost" = true) ∧
       strContains (lowerStr s) "push" = true)) ∧
    (classifyLegStatus s = Outcome.pending ↔
      (¬strContains (lowerStr s) "win" = true ∧
       ¬(strContains (lowerStr s) "lose" = true ∨
         strContains (lowerStr s) "lost" = true) ∧
       ¬strContains (lowerStr s) "push" = true)) ∧
    (∀ o : Outcome,
      ((bumpTeam o t).wins = t.wins + (if o = Outcome.wins then 1 else 0) ∧
       (bumpTeam o t).losses = t.losses + (if o = Outcome.losses then 1 else 0) ∧
       (bumpTeam o t).pushes = t.pushes + (if o = Outcome.pushes then 1 else 0) ∧
       (bumpTeam o t).pending = t.pending + (if o = Outcome.pending then 1 else 0)) ∧
      ((playerUpdateCore pt o p).wins =
         p.wins + (if o = Outcome.wins then 1 else 0) ∧
       (playerUpdateCore pt o p).losses =
         p.losses + (if o = Outcome.losses then 1 else 0) ∧
       (playerUpdateCore pt o p).pushes =
         p.pushes + (if o = Outcome.pushes then 1 else 0) ∧
       (playerUpdateCore pt o p).pending =
         p.pending + (if o = Outcome.pending then 1 else 0)) ∧
      ((bumpProp o q).wins = q.wins + (if o = Outcome.wins then 1 else 0) ∧
       (bumpProp o q).losses = q.losses + (if o = Outcome.losses then 1 else 0) ∧
       (bumpProp o q).pushes = q.pushes + (if o = Outcome.pushes then 1 else 0) ∧
       (bumpProp o q).pending =
         q.pending + (if o = Outcome.pending then 1 else 0))) := by
  refine ⟨?_, ?_, ?_, ?_, ?_, ?_, ?_, ?_, ?_⟩
  case _ =>
    by_cases h1 : (strContains (lowerStr r) "won" ||
        strContains (lowerStr r) "win") = true
    · rw [Bool.or_eq_true] at h1
      simp [classifySingleResult, h1]
    · rw [Bool.not_eq_true, Bool.or_eq_false_iff] at h1
      simp [classifySingleResult, h1.1, h1.2]
      split <;> (try split) <;> simp
  case _ =>
    by_cases h1 : (strContains (lowerStr r) "won" ||
        strContains (lowerStr r) "win") = true
    · rw [Bool.or_eq_true] at h1
      simp [classifySingleResult, h1]
    · rw [Bool.not_eq_true, Bool.or_eq_false_iff] at h1
      by_cases h2 : (strContains (lowerStr r) "lost" ||
          strContains (lowerStr r) "lose") = true
      · rw [Bool.or_eq_true] at h2
        simp [classifySingleResult, h1.1, h1.2, h2]
      · rw [Bool.not_eq_true, Bool.or_eq_false_iff] at h2
        simp [classifySingleResult, h1.1, h1.2, h2.1, h2.2]
        split <;> simp
  case _ =>
    by_cases h1 : (strContains (lowerStr r) "won" ||
        strContains (lowerStr r) "win") = true
    · rw [Bool.or_eq_true] at h1
      simp [classifySingleResult, h1]
    · rw [Bool.not_eq_true, Bool.or_eq_false_iff] at h1
      by_cases h2 : (strContains (lowerStr r) "lost" ||
          strContains (lowerStr r) "lose") = true
      · rw [Bool.or_eq_true] at h2
        simp [classifySingleResult, h1.1, h1.2, h2]
      · rw [Bool.not_eq_true, Bool.or_eq_false_iff] at h2
        by_cases h3 : strContains (lowerStr r) "push" = true
        · simp [classifySingleResult, h1.1, h1.2, h2.1, h2.2, h3]
        · rw [Bool.not_eq_true] at h3
          simp [classifySingleResult, h1.1, h1.2, h2.1, h2.2, h3]
  case _ =>
    by_cases h1 : (strContains (lowerStr r) "won" ||
        strContains (lowerStr r) "win") = true
    · rw [Bool.or_eq_true] at h1
      simp [classifySingleResult, h1]
    · rw [Bool.not_eq_true, Bool.or_eq_false_iff] at h1
      by_cases h2 : (strContains (lowerStr r) "lost" ||
          strContains (lowerStr r) "lose") = true
      · rw [Bool.or_eq_true] at h2
        simp [classifySingleResult, h1.1, h1.2, h2]
      · rw [Bool.not_eq_true, Bool.or_eq_false_iff] at h2
        by_cases h3 : strContains (lowerStr r) "push" = true
        · simp [classifySingleResult, h1.1, h1.2, h2.1, h2.2, h3]
        · rw [Bool.not_eq_true] at h3
          simp [classifySingleResult, h1.1, h1.2, h2.1, h2.2, h3]
  case _ =>
    by_cases h1 : strContains (lowerStr s) "win" = true
    · simp [classifyLegStatus, h1]
    · rw [Bool.not_eq_true] at h1
      simp [classifyLegStatus, h1]
      split <;> (try split) <;> simp
  case _ =>
    by_cases h1 : strContains (lowerStr s) "win" = true
    · simp [classifyLegStatus, h1]
    · rw [Bool.not_eq_true] at h1
      by_cases h2 : (strContains (lowerStr s) "lose" ||
          strContains (lowerStr s) "lost") = true
      · rw [Bool.or_eq_true] at h2
        simp [classifyLegStatus, h1, h2]
      · rw [Bool.not_eq_true, Bool.or_eq_false_iff] at h2
        simp [classifyLegStatus, h1, h2.1, h2.2]
        split <;> simp
  case _ =>
    by_cases h1 : strContains (lowerStr s) "win" = true
    · simp [classifyLegStatus, h1]
    · rw [Bool.not_eq_true] at h1
      by_cases h2 : (strContains (lowerStr s) "lose" ||
          strContains (lowerStr s) "lost") = true
      · rw [Bool.or_eq_true] at h2
        simp [classifyLegStatus, h1, h2]
      · rw [Bool.not_eq_true, Bool.or_eq_false_iff] at h2
        by_cases h3 : strContains (lowerStr s) "push" = true
        · simp [classifyLegStatus, h1, h2.1, h2.2, h3]
        · rw [Bool.not_eq_true] at h3
          simp [classifyLegStatus, h1, h2.1, h2.2, h3]
  case _ =>
    by_cases h1 : strContains (lowerStr s) "win" = true
    · simp [classifyLegStatus, h1]
    · rw [Bool.not_eq_true] at h1
      by_cases h2 : (strContains (lowerStr s) "lose" ||
          strContains (lowerStr s) "lost") = true
      · rw [Bool.or_eq_true] at h2
        simp [classifyLegStatus, h1, h2]
      · rw [Bool.not_eq_true, Bool.or_eq_false_iff] at h2
        by_cases h3 : strContains (lowerStr s) "push" = true
        · simp [classifyLegStatus, h1, h2.1, h2.2, h3]
        · rw [Bool.not_eq_true] at h3
          simp [classifyLegStatus, h1, h2.1, h2.2, h3]
  case _ =>
    intro o
    refine ⟨?_, ?_, ?_⟩
    · cases o <;> simp [bumpTeam, addOutcomeTeam]
    · cases o <;>
        (unfold playerUpdateCore; dsimp only; split) <;>
        simp [addOutcomePlayer]
    · cases o <;> simp [bumpProp, addOutcomeProp]

/-- Claim C4: for a parlay-header row followed by a window of rows none of
which is a header or single-bet row, and then (possibly) a boundary row
and arbitrary remaining input, the legs emitted during the window are
exactly the window's leg-continuation rows, numbered `1..N` in output
order with no gaps or duplicates, all referencing the open parlay's id;
later rows only append further legs after them. -/
theorem claim_C4 (u : String) (pre ws rest : List Row) (hrow : Row)
    (hh1 : shapeSkip hrow = false) (hh2 : isParlay hrow = true)
    (hws : ∀ r ∈ ws, boundaryRow r = false)
    (_hmax : rest = [] ∨ ∃ b tail, rest = b :: tail ∧ boundaryRow b = true) :
    ∃ (pid : String) (L later : List ParlayLeg),
      (runExtract u (pre ++ hrow :: ws)).currentParlayId = some pid ∧
      (runExtract u (pre ++ hrow :: (ws ++ rest))).parlayLegs =
        (runExtract u (pre ++ [hrow])).parlayLegs ++ L ++ later ∧
      L.map (fun l => l.legNumber) =
        List.range' 1 (ws.filter legContinuationRow).length ∧
      (∀ l ∈ L, l.parlayId = pid) := by
  have e0 : runExtract u (pre ++ [hrow]) =
      processRow u (runExtract u pre) hrow := by
    unfold runExtract
    rw [List.foldl_append, List.foldl_cons, List.foldl_nil]
  have hstep := processRow_parlay_eq u (runExtract u pre) hrow hh1 hh2
  have hcur : (runExtract u (pre ++ [hrow])).currentParlayId =
      some (genBetId "generated-parlay-" (getCell hrow 13)
        (runExtract u pre).parlayIdCounter) := by
    rw [e0, hstep]
  have hzero : (runExtract u (pre ++ [hrow])).currentLegNumber = 0 := by
    rw [e0, hstep]
  have hne : genBetId "generated-parlay-" (getCell hrow 13)
      (runExtract u pre).parlayIdCounter ≠ "" :=
    genBetId_ne_empty _ _ _ (by decide)
  obtain ⟨L, hL1, hL2, hL3, hL4, hL5, hL6, hL7⟩ :=
    window_fold u ws (runExtract u (pre ++ [hrow])) _ hcur hne hws
  have e1 : runExtract u (pre ++ hrow :: ws) =
      ws.foldl (processRow u) (runExtract u (pre ++ [hrow])) := by
    unfold runExtract
    rw [List.foldl_append, List.foldl_cons, ← List.foldl_cons,
      ← List.foldl_append]
    unfold runExtract at e0
    rw [show pre ++ hrow :: ws = (pre ++ [hrow]) ++ ws by simp]
    rw [List.foldl_append]
  obtain ⟨later, hlater⟩ :=
    foldl_legs_mono u rest (ws.foldl (processRow u) (runExtract u (pre ++ [hrow])))
  have e2 : runExtract u (pre ++ hrow :: (ws ++ rest)) =
      rest.foldl (processRow u)
        (ws.foldl (processRow u) (runExtract u (pre ++ [hrow]))) := by
    unfold runExtract
    rw [show pre ++ hrow :: (ws ++ rest) = ((pre ++ [hrow]) ++ ws) ++ rest by
      simp]
    rw [List.foldl_append, List.foldl_append]
  refine ⟨genBetId "generated-parlay-" (getCell hrow 13)
      (runExtract u pre).parlayIdCounter, L, later, ?_, ?_, ?_, hL3⟩
  · rw [e1]
    exact hL4
  · rw [e2, hlater, hL1]
  · rw [hL2, hzero]

/-- Claim C4, witness: a header with two leg rows then a single-bet
boundary yields legs numbered 1 and 2 referencing the header's slip id. -/
theorem claim_C4_witness :
    ∃ (pid : String) (L later : List ParlayLeg),
      (runExtract "u1" ([] ++ parlayHeaderRow :: [legRow, legRowB])).currentParlayId =
        some pid ∧
      (runExtract "u1"
          ([] ++ parlayHeaderRow :: ([legRow, legRowB] ++ [scenarioRowA]))).parlayLegs =
        (runExtract "u1" ([] ++ [parlayHeaderRow])).parlayLegs ++ L ++ later ∧
      L.map (fun l => l.legNumber) =
        List.range' 1 ([legRow, legRowB].filter legContinuationRow).length ∧
      (∀ l ∈ L, l.parlayId = pid) :=
  claim_C4 "u1" [] [legRow, legRowB] [scenarioRowA] parlayHeaderRow
    (by decide) (by decide) (by decide)
    (Or.inr ⟨scenarioRowA, [], rfl, by decide⟩)

/-- Claim C5: leg accumulation has no cap derived from the header's match
field — while a parlay is open, every consecutive leg-continuation row
attaches one leg to it, for any number of such rows — and it stops exactly
at the next header or single-bet row: that row appends no leg, a single
bet clears the open-parlay id, and a new header resets the leg counter. -/
theorem claim_C5 (u pid : String) (st : ExtractState) (ws : List Row)
    (b : Row)
    (h1 : st.currentParlayId = some pid) (h2 : pid ≠ "")
    (hws : ∀ r ∈ ws, legContinuationRow r = true)
    (hb1 : shapeSkip b = false)
    (hb2 : isParlay b = true ∨ isSingleBet b = true) :
    (∃ L, (ws.foldl (processRow u) st).parlayLegs = st.parlayLegs ++ L ∧
      L.length = ws.length ∧ ∀ l ∈ L, l.parlayId = pid) ∧
    (ws.foldl (processRow u) st).currentParlayId = some pid ∧
    (processRow u (ws.foldl (processRow u) st) b).parlayLegs =
      (ws.foldl (processRow u) st).parlayLegs ∧
    (isParlay b = false →
      (processRow u (ws.foldl (processRow u) st) b).currentParlayId = none) ∧
    (isParlay b = true →
      (processRow u (ws.foldl (processRow u) st) b).currentLegNumber = 0) := by
  have hwsb : ∀ r ∈ ws, boundaryRow r = false := by
    intro r hr
    have hlr := hws r hr
    simp only [legContinuationRow, Bool.and_eq_true, Bool.not_eq_true'] at hlr
    have hnb := legRow_not_boundary r hlr.2
    simp [boundaryRow, hlr.1, hnb.1, hnb.2]
  have hfilter : ws.filter legContinuationRow = ws :=
    List.filter_eq_self.mpr hws
  obtain ⟨L, hL1, hL2, hL3, hL4, hL5, hL6, hL7⟩ :=
    window_fold u ws st pid h1 h2 hwsb
  refine ⟨⟨L, hL1, ?_, hL3⟩, hL4, ?_, ?_, ?_⟩
  · have := congrArg List.length hL2
    simpa [hfilter] using this
  · by_cases hp : isParlay b = true
    · rw [processRow_parlay_eq u _ b hb1 hp]
    · rw [Bool.not_eq_true] at hp
      have hsb : isSingleBet b = true := by
        rcases hb2 with hb2 | hb2
        · rw [hb2] at hp; cases hp
        · exact hb2
      rw [processRow_single_eq u _ b hb1 hp hsb]
  · intro hp
    have hsb : isSingleBet b = true := by
      rcases hb2 with hb2 | hb2
      · rw [hb2] at hp; cases hp
      · exact hb2
    rw [processRow_single_eq u _ b hb1 hp hsb]
  · intro hp
    rw [processRow_parlay_eq u _ b hb1 hp]

/-- Claim C5, witness: with the parlay of `parlayHeaderRow` open (its
match field names two games), three consecutive leg rows all attach —
more than the two the match field suggests — and the single-bet boundary
then closes the parlay without adding a leg. -/
theorem claim_C5_witness :
    (∃ L, ([legRow, legRowB, legRow].foldl (processRow "u1")
        (runExtract "u1" [parlayHeaderRow])).parlayLegs =
        (runExtract "u1" [parlayHeaderRow]).parlayLegs ++ L ∧
      L.length = [legRow, legRowB, legRow].length ∧
      ∀ l ∈ L, l.parlayId = "9876543210987654321") ∧
    ([legRow, legRowB, legRow].foldl (processRow "u1")
        (runExtract "u1" [parlayHeaderRow])).currentParlayId =
      some "9876543210987654321" ∧
    (processRow "u1" ([legRow, legRowB, legRow].foldl (processRow "u1")
        (runExtract "u1" [parlayHeaderRow])) scenarioRowA).parlayLegs =
      ([legRow, legRowB, legRow].foldl (processRow "u1")
        (runExtract "u1" [parlayHeaderRow])).parlayLegs ∧
    (isParlay scenarioRowA = false →
      (processRow "u1" ([legRow, legRowB, legRow].foldl (processRow "u1")
          (runExtract "u1" [parlayHeaderRow])) scenarioRowA).currentParlayId =
        none) ∧
    (isParlay scenarioRowA = true →
      (processRow "u1" ([legRow, legRowB, legRow].foldl (processRow "u1")
          (runExtract "u1" [parlayHeaderRow])) scenarioRowA).currentLegNumber =
        0) :=
  claim_C5 "u1" "9876543210987654321" (runExtract "u1" [parlayHeaderRow])
    [legRow, legRowB, legRow] scenarioRowA (by decide) (by decide)
    (by decide) (by decide) (Or.inr (by decide))

end Betting
